import Mathlib

/-!
# ParticleEngine: the emitter of `src/Emitter.h`

A shallow embedding of `EmitterFormat` and of the class template `Emitter<EMITTER_TEMPLATE>`:
its members, `setup`, `setPosition`, `getPosition`, `getNumLiveParticles`, `applyPerlin`,
`addParticles`, `setupParticle` and the body of the loop of `update`.

Conventions of the embedding.

* A finite `float` or `double` value is the rational it denotes; infinities and NaN are not
  represented.  The arithmetic that decides an `int` of the emitter or a bound of the random
  source is rounded as the machine rounds it, each operation in the format of its C++ type
  (no excess precision, no fused multiply-add), to nearest with ties to even: the capacity in
  `setup` in `float` (`f32`), the elapsed time and the number of requests in `update` in
  `double` (`f64`), the lifespan bounds in `setupParticle` in `float`, with the constants `0.95f`
  and `1.05f` as the `float` values they denote.  Subnormal results are rounded as such; a result
  too large for the format, which the machine replaces by an infinity, keeps its rounded finite
  value here.  For a conversion to `int` this makes no difference, both being out of the range
  of `int`; it would make one where an infinite elapsed time is multiplied by a rate of zero or
  an infinite bound is handed to the random source, so the statements about the requested number
  and about the lifespan require the elapsed time and the upper lifespan bound to be finite.
  The vectors handed to the noise generator and to the particles are computed exactly.
* The conversion of a floating value to `int` is truncation toward zero when the result fits
  the type `int`; otherwise C++ leaves it undefined, and `truncToInt` returns `INT_MIN`, which is
  what the conversion instructions of x86 deliver.
* `int` members are integers.  The only increment of an `int` (`mCurrNumParticles++`) happens
  below `mMaxParticles`, so it cannot overflow; `unsigned int mCounter` wraps at `2^32`.
* `mParticles` is a `std::list`, whose elements never move and are never erased by the emitter,
  so a pointer `&*p` stored in `mPurgParticles` is the position of the element in `mParticles`.
* The particle type is the template parameter: its flags `mIsDead` and `mIsInPurgatory` are
  fields of `Particle`, everything else it stores is the payload `α`, and its member functions
  are the fields of `ParticleOps`.
* Clock readings, the random source and the noise generator are inputs.
-/

namespace ParticleEngine

/-! ## Values -/

/-- A `ci::Vec3f`. -/
structure Vec3f where
  x : ℚ
  y : ℚ
  z : ℚ
deriving DecidableEq

/-- The vector `Vec3f::zero()`. -/
def Vec3f.zero : Vec3f := ⟨0, 0, 0⟩

/-- The product `v * k` of a vector and a scalar. -/
def Vec3f.scale (v : Vec3f) (k : ℚ) : Vec3f := ⟨v.x * k, v.y * k, v.z * k⟩

/-- A `ci::ColorA`. -/
structure ColorA where
  r : ℚ
  g : ℚ
  b : ℚ
  a : ℚ
deriving DecidableEq

/-! ## Floating-point arithmetic and conversion to `int` -/

/-- The integer nearest to a rational, a tie going to the even integer. -/
def roundHalfEven (x : ℚ) : Int :=
  if x - ⌊x⌋ < 1 / 2 then ⌊x⌋
  else if 1 / 2 < x - ⌊x⌋ then ⌊x⌋ + 1
  else if ⌊x⌋ % 2 = 0 then ⌊x⌋ else ⌊x⌋ + 1

/-- The number of halvings that bring `n` below 2, with `fuel` steps at most. -/
def log2Aux : Nat → Nat → Nat
  | 0, _ => 0
  | fuel + 1, n => if n < 2 then 0 else log2Aux fuel (n / 2) + 1

/-- The position of the leading bit of a natural number: `floor(log2 n)`, and 0 for `n = 0`. -/
def log2Nat (n : Nat) : Nat := log2Aux n n

/-- The binary exponent `floor(log2 |q|)` of a non-zero rational: the difference of the
exponents of numerator and denominator, or one less. -/
def log2Floor (q : ℚ) : Int :=
  if (2 : ℚ) ^ ((log2Nat q.num.natAbs : Int) - (log2Nat q.den : Int)) ≤ |q| then
    (log2Nat q.num.natAbs : Int) - (log2Nat q.den : Int)
  else (log2Nat q.num.natAbs : Int) - (log2Nat q.den : Int) - 1

/-- The exponent of the unit in the last place of a non-zero value `q` in a binary format with
a significand of `p` bits and least exponent `emin`: `floor(log2 |q|) - (p - 1)` for a normal
value, `emin - (p - 1)` for a subnormal one. -/
def ulpExp (p : Nat) (emin : Int) (q : ℚ) : Int :=
  max (log2Floor q - ((p : Int) - 1)) (emin - ((p : Int) - 1))

/-- Rounding to nearest, ties to even, in a binary format with a significand of `p` bits and
least exponent `emin`: the multiple of the unit in the last place that is nearest to `q`. -/
def roundBinary (p : Nat) (emin : Int) (q : ℚ) : ℚ :=
  if q = 0 then 0
  else (roundHalfEven (q / (2 : ℚ) ^ ulpExp p emin q) : ℚ) * (2 : ℚ) ^ ulpExp p emin q

/-- The result of an operation on `float` (IEEE binary32) whose exact value is `q`. -/
def f32 (q : ℚ) : ℚ := roundBinary 24 (-126) q

/-- The result of an operation on `double` (IEEE binary64) whose exact value is `q`. -/
def f64 (q : ℚ) : ℚ := roundBinary 53 (-1022) q

/-- The least value of the type `int`. -/
def INT_MIN : Int := -2147483648

/-- The greatest value of the type `int`. -/
def INT_MAX : Int := 2147483647

/-- The greatest finite value of the type `float`. -/
def FLT_MAX : ℚ := (2 ^ 24 - 1) * 2 ^ 104

/-- The greatest finite value of the type `double`. -/
def DBL_MAX : ℚ := (2 ^ 53 - 1) * 2 ^ 971

/-- Conversion of a floating value to `int`: the fractional part is discarded (truncation toward
zero).  C++ defines the conversion only when the truncated value fits the type `int`; for the
other values the embedding returns `INT_MIN`, as the conversion instructions of x86 do. -/
def truncToInt (q : ℚ) : Int :=
  if INT_MIN ≤ Int.tdiv q.num q.den ∧ Int.tdiv q.num q.den ≤ INT_MAX then Int.tdiv q.num q.den
  else INT_MIN

/-! ## EmitterFormat -/

/-- The enumerator `PARTICLE_RENDER_TYPE_BILLBOARD`. -/
def PARTICLE_RENDER_TYPE_BILLBOARD : Int := 0
/-- The enumerator `PARTICLE_RENDER_TYPE_QUAD`. -/
def PARTICLE_RENDER_TYPE_QUAD : Int := 1
/-- The enumerator `PARTICLE_RENDER_TYPE_POINT`. -/
def PARTICLE_RENDER_TYPE_POINT : Int := 2
/-- The enumerator `PARTICLE_RENDER_TYPE_POINTSPRITE`. -/
def PARTICLE_RENDER_TYPE_POINTSPRITE : Int := 3

/-- The enumerator `PERLIN_TYPE_NONE`. -/
def PERLIN_TYPE_NONE : Int := 0
/-- The enumerator `PERLIN_TYPE_INDIVIDUAL`. -/
def PERLIN_TYPE_INDIVIDUAL : Int := 1
/-- The enumerator `PERLIN_TYPE_SYNCHRONIZED`. -/
def PERLIN_TYPE_SYNCHRONIZED : Int := 2

/-- The struct `EmitterFormat`. -/
structure EmitterFormat where
  emitterPosition : Vec3f
  particlesPerSecond : Int
  particleRenderType : Int
  particlePerlinType : Int
  particleGravity : Vec3f
  particleSpeed : ℚ
  particleColorA : ColorA
  particleLifespanSeconds : ℚ
  particleSize : ℚ
  particleDecay : ℚ
  particleTurbulance : ℚ
  isRandomSize : Bool
  isRandomBrightness : Bool
  isChangingOpacityOverTime : Bool
  isChangingSizeOverTime : Bool
  isChangingRotationOverTime : Bool
  isImmortalParticle : Bool
deriving DecidableEq

/-- The constructor `EmitterFormat()`. -/
def EmitterFormat.default : EmitterFormat where
  emitterPosition := Vec3f.zero
  particlesPerSecond := 100
  particleRenderType := PARTICLE_RENDER_TYPE_BILLBOARD
  particlePerlinType := PERLIN_TYPE_INDIVIDUAL
  particleGravity := Vec3f.zero
  particleSpeed := 3 / 10
  particleColorA := ⟨1, 1, 1, 1⟩
  particleSize := 5
  particleDecay := 99 / 100
  particleTurbulance := 0
  particleLifespanSeconds := 4
  isRandomSize := true
  isRandomBrightness := false
  isChangingOpacityOverTime := true
  isChangingSizeOverTime := true
  isChangingRotationOverTime := true
  isImmortalParticle := false

/-! ## The particle type (template parameter) -/

/-- A value of the particle type `EMITTER_TEMPLATE`: the two flags the emitter reads and writes,
and the rest of the particle as a payload. -/
structure Particle (α : Type) where
  mIsDead : Bool
  mIsInPurgatory : Bool
  body : α
deriving DecidableEq

/-- The member functions of the particle type that the emitter calls. -/
structure ParticleOps (α : Type) where
  /-- The default constructor `EMITTER_TEMPLATE()`. -/
  construct : Particle α
  /-- The call `p->setup(loc, speed, size, color, lifespan, decay)`. -/
  setup : Particle α → Vec3f → ℚ → ℚ → ColorA → ℚ → ℚ → Particle α
  /-- The call `p->update(gravity)`. -/
  update : Particle α → Vec3f → Particle α
  /-- The call `p->applyPerlin(turbulence)`. -/
  applyPerlin : Particle α → ℚ → Particle α
  /-- The call `p->applyPerlin(turbulence, &noiseVector)`. -/
  applyPerlinVec : Particle α → ℚ → Vec3f → Particle α

/-- What the emitter takes from outside: the particle type, `Rand::randFloat(a, b)` (its first
argument numbers the call) and `Perlin::dfBm` (its first argument is the seed). -/
structure Env (α : Type) where
  ops : ParticleOps α
  randFloat : Nat → ℚ → ℚ → ℚ
  dfBm : Int → Vec3f → Vec3f

/-! ## Emitter -/

/-- The members of `Emitter<EMITTER_TEMPLATE>`.  `mPerlin` is represented by its seed,
`mWriteMutex` by whether it is locked; `mRandCalls` counts the calls of `Rand::randFloat` made
by `setupParticle` (the state of the global random source). -/
structure Emitter (α : Type) where
  mParticles : List (Particle α)
  mPurgParticles : List Nat
  mCurrNumParticles : Int
  mCurrTime : ℚ
  mDiffTime : ℚ
  mPerlin : Int
  mCounter : Nat
  mWriteMutex : Bool
  THREAD_UPDATE_INTERVAL_MILLISECONDS : Int
  mIsThreadDead : Bool
  mFormat : EmitterFormat
  mMaxParticles : Int
  mRandCalls : Nat

/-- The constructor `Emitter(){}`: the two lists are empty and the mutex is unlocked; the other
members are not initialised and keep whatever value `junk` has. -/
def Emitter.construct {α : Type} (junk : Emitter α) : Emitter α :=
  { junk with mParticles := [], mPurgParticles := [], mWriteMutex := false }

/-- The values `setup` reads from the application: `getElapsedSeconds()`, `getFrameRate()`,
`getElapsedFrames()` and `randInt(1000)`. -/
structure SetupClock where
  elapsedSeconds : ℚ
  frameRate : ℚ
  elapsedFrames : Int
  randInt : Int

/-- The function `Emitter::setup`.  The lists `mParticles` and `mPurgParticles` are not
assigned.  The capacity is the `float` expression `particlesPerSecond * particleLifespanSeconds
+ 2000` (the rate converted to `float`, the product and the sum each rounded) converted to
`int`; the interval is `(1.0f / getFrameRate()) * 1000.0f` converted to `int`, where a frame
rate of zero makes the quotient infinite.  The thread that `setup` starts is the function
`update` below, run on the state that `setup` returns. -/
def setup {α : Type} (e : Emitter α) (format : EmitterFormat) (w : SetupClock) : Emitter α :=
  { e with
    mFormat := format
    mCurrTime := w.elapsedSeconds
    mDiffTime := 0
    mMaxParticles :=
      truncToInt
        (f32 (f32 (f32 (format.particlesPerSecond : ℚ) * format.particleLifespanSeconds) + 2000))
    mCurrNumParticles := 0
    THREAD_UPDATE_INTERVAL_MILLISECONDS :=
      if w.frameRate = 0 then INT_MIN else truncToInt (f32 (f32 (1 / w.frameRate) * 1000))
    mIsThreadDead := false
    mPerlin := w.elapsedFrames * w.randInt
    mCounter := 0 }

/-- The function `Emitter::setPosition`.  The `scoped_lock` is built with `try_to_lock`: it owns
the mutex when the mutex was free and releases it on return.  The assignment does not look at
whether the lock is owned. -/
def setPosition {α : Type} (e : Emitter α) (newPos : Vec3f) : Emitter α :=
  let owns := !e.mWriteMutex
  let e1 := if owns then { e with mWriteMutex := true } else e
  let e2 := { e1 with mFormat := { e1.mFormat with emitterPosition := newPos } }
  if owns then { e2 with mWriteMutex := false } else e2

/-- The function `Emitter::getPosition`. -/
def getPosition {α : Type} (e : Emitter α) : Vec3f := e.mFormat.emitterPosition

/-- The function `Emitter::getNumLiveParticles`. -/
def getNumLiveParticles {α : Type} (e : Emitter α) : Int := e.mCurrNumParticles

/-- The test `(!p->mIsDead) && (!p->mIsInPurgatory)` of `render` and `applyPerlin`. -/
def isLive {α : Type} (p : Particle α) : Bool := (!p.mIsDead) && (!p.mIsInPurgatory)

/-- The noise vector of the synchronized branch of `applyPerlin`. -/
def noiseVector {α : Type} (env : Env α) (e : Emitter α) : Vec3f :=
  ((env.dfBm e.mPerlin
    ((Vec3f.mk 0 0 (e.mCounter : ℚ)).scale e.mFormat.particleTurbulance)).scale
      e.mFormat.particleTurbulance).scale (1 / 10)

/-- The function `Emitter::applyPerlin`. -/
def applyPerlin {α : Type} (env : Env α) (e : Emitter α) : Emitter α :=
  if e.mFormat.particlePerlinType = PERLIN_TYPE_NONE then e
  else if e.mFormat.particlePerlinType = PERLIN_TYPE_INDIVIDUAL then
    { e with
      mParticles := e.mParticles.map fun p =>
        if isLive p then env.ops.applyPerlin p e.mFormat.particleTurbulance else p }
  else if e.mFormat.particlePerlinType = PERLIN_TYPE_SYNCHRONIZED then
    { e with
      mParticles := e.mParticles.map fun p =>
        if isLive p then
          env.ops.applyPerlinVec p e.mFormat.particleTurbulance (noiseVector env e)
        else p
      mCounter := (e.mCounter + 1) % 2 ^ 32 }
  else e

/-- The function `Emitter::setupParticle`, as the new value of the particle it is given.  The
call of `Rand::randFloat` is call number `mRandCalls`; its bounds are the `float` products of
the lifespan and the `float` constants `0.95f` and `1.05f`. -/
def setupParticle {α : Type} (env : Env α) (e : Emitter α) (particle : Particle α) :
    Particle α :=
  let loc := e.mFormat.emitterPosition
  let randLifeSpan := env.randFloat e.mRandCalls
    (f32 (e.mFormat.particleLifespanSeconds * f32 (95 / 100)))
    (f32 (e.mFormat.particleLifespanSeconds * f32 (105 / 100)))
  env.ops.setup particle loc e.mFormat.particleSpeed e.mFormat.particleSize
    e.mFormat.particleColorA randLifeSpan e.mFormat.particleDecay

/-- Replace the element at position `i` of a list by its image under `f` (a write through a
pointer to that element); a position outside the list changes nothing. -/
def writeAt {β : Type} (f : β → β) : Nat → List β → List β
  | _, [] => []
  | 0, x :: xs => f x :: xs
  | i + 1, x :: xs => x :: writeAt f i xs

/-- The first branch of the body of the loop of `addParticles`: a new particle is constructed,
set up and pushed to the back of `mParticles`. -/
def createParticle {α : Type} (env : Env α) (e : Emitter α) : Emitter α :=
  { e with
    mParticles := e.mParticles ++ [setupParticle env e env.ops.construct]
    mCurrNumParticles := e.mCurrNumParticles + 1
    mRandCalls := e.mRandCalls + 1 }

/-- The second branch of the body of the loop of `addParticles`, for a purgatory list whose
back is `i`: the particle at `i` is set up again and the back is popped. -/
def recycleParticle {α : Type} (env : Env α) (e : Emitter α) (i : Nat) : Emitter α :=
  { e with
    mParticles := writeAt (setupParticle env e) i e.mParticles
    mPurgParticles := e.mPurgParticles.dropLast
    mRandCalls := e.mRandCalls + 1 }

/-- The body of the loop of `addParticles`. -/
def addParticlesBody {α : Type} (env : Env α) (e : Emitter α) : Emitter α :=
  if e.mCurrNumParticles < e.mMaxParticles then createParticle env e
  else
    match e.mPurgParticles.getLast? with
    | some i => recycleParticle env e i
    | none => e

/-- The loop `for (i = 0; i < amt; i++)` of `addParticles`, by the number of iterations left. -/
def addParticlesLoop {α : Type} (env : Env α) : Nat → Emitter α → Emitter α
  | 0, e => e
  | n + 1, e => addParticlesLoop env n (addParticlesBody env e)

/-- The function `Emitter::addParticles`: the loop runs `amt` times, not at all for `amt ≤ 0`. -/
def addParticles {α : Type} (env : Env α) (amt : Int) (e : Emitter α) : Emitter α :=
  addParticlesLoop env amt.toNat e

/-- The loop over `mParticles` in `update`, from the element at position `i` on: the rest of
the list and the purgatory list so far give the new rest and the new purgatory list. -/
def sweepLoop {α : Type} (env : Env α) (gravity : Vec3f) :
    Nat → List (Particle α) → List Nat → List (Particle α) × List Nat
  | _, [], purg => ([], purg)
  | i, p :: ps, purg =>
    if p.mIsDead then
      let r := sweepLoop env gravity (i + 1) ps (purg ++ [i])
      ({ p with mIsDead := false, mIsInPurgatory := true } :: r.1, r.2)
    else if !p.mIsInPurgatory then
      let r := sweepLoop env gravity (i + 1) ps purg
      (env.ops.update p gravity :: r.1, r.2)
    else
      let r := sweepLoop env gravity (i + 1) ps purg
      (p :: r.1, r.2)

/-- The argument of the call of `addParticles` in `update`: the `double` product
`mFormat.particlesPerSecond * mDiffTime`, converted to the parameter type `const int`. -/
def spawnAmount {α : Type} (e : Emitter α) : Int :=
  truncToInt (f64 ((e.mFormat.particlesPerSecond : ℚ) * e.mDiffTime))

/-- The loop over `mParticles` in `update`, on the emitter. -/
def sweepPass {α : Type} (env : Env α) (e : Emitter α) : Emitter α :=
  let r := sweepLoop env e.mFormat.particleGravity 0 e.mParticles e.mPurgParticles
  { e with mParticles := r.1, mPurgParticles := r.2 }

/-- The first statements of an iteration of the loop of `Emitter::update`, up to and including
the call of `addParticles`; `tStart` is the reading of `getElapsedSeconds()`, and `mDiffTime` is
the `double` difference of that reading and `mCurrTime`. -/
def spawnPhase {α : Type} (env : Env α) (e : Emitter α) (tStart : ℚ) : Emitter α :=
  let e1 := { e with mDiffTime := f64 (tStart - e.mCurrTime) }
  let e2 := applyPerlin env e1
  addParticles env (spawnAmount e2) e2

/-- One iteration of the loop of `Emitter::update`, with the two readings of
`getElapsedSeconds()`: `tStart` at the top and `tEnd` after the loop over the particles.  The
lock taken at the top is released at the end of the iteration, so `mWriteMutex` is the same
before and after. -/
def tick {α : Type} (env : Env α) (e : Emitter α) (tStart tEnd : ℚ) : Emitter α :=
  { sweepPass env (spawnPhase env e tStart) with mCurrTime := tEnd }

/-- The function `Emitter::update`: the loop `while (!mIsThreadDead)`, one pair of clock
readings for each iteration. -/
def update {α : Type} (env : Env α) : List (ℚ × ℚ) → Emitter α → Emitter α
  | [], e => e
  | t :: ts, e => if e.mIsThreadDead then e else update env ts (tick env e t.1 t.2)

/-! ## Definitions used to state the properties -/

/-- The positions, from `i` on, of the particles of a list that have `mIsDead` set. -/
def deadPositions {α : Type} : Nat → List (Particle α) → List Nat
  | _, [] => []
  | i, p :: ps =>
    if p.mIsDead then i :: deadPositions (i + 1) ps else deadPositions (i + 1) ps

/-- What the loop over `mParticles` in `update` does to one particle. -/
def sweepOne {α : Type} (env : Env α) (gravity : Vec3f) (p : Particle α) : Particle α :=
  if p.mIsDead then { p with mIsDead := false, mIsInPurgatory := true }
  else if !p.mIsInPurgatory then env.ops.update p gravity
  else p

/-- The second branch of the body of the loop of `addParticles`, with its test: the back of a
non-empty purgatory list is recycled, an empty list changes nothing. -/
def recycleBack {α : Type} (env : Env α) (e : Emitter α) : Emitter α :=
  match e.mPurgParticles.getLast? with
  | some i => recycleParticle env e i
  | none => e

/-- The configurations the specification calls valid: a positive lifespan and a non-negative
emission rate. -/
def validFormat (f : EmitterFormat) : Prop :=
  0 < f.particleLifespanSeconds ∧ 0 ≤ f.particlesPerSecond

/-- Modelled from the spec: the particle type of `Particle.h`, which is not among the sources.
The payload is the remaining life in seconds.  `setup` clears both flags and stores the
lifespan; `update` takes one step of a sixtieth of a second off the remaining life and sets
`mIsDead` when the life is used up; turbulence changes neither flag. -/
def lifeOps : ParticleOps ℚ where
  construct := ⟨false, false, 0⟩
  setup := fun _ _ _ _ _ lifespan _ => ⟨false, false, lifespan⟩
  update := fun p _ =>
    if p.body ≤ 1 / 60 then { p with mIsDead := true, body := 0 }
    else { p with body := p.body - 1 / 60 }
  applyPerlin := fun p _ => p
  applyPerlinVec := fun p _ _ => p

/-- An environment for `lifeOps`: the random source returns its lower bound and the noise
generator returns the point it is given. -/
def lifeEnv : Env ℚ where
  ops := lifeOps
  randFloat := fun _ a _ => a
  dfBm := fun _ v => v

/-- Member values of an emitter before its constructor ran. -/
def junkEmitter : Emitter ℚ where
  mParticles := []
  mPurgParticles := []
  mCurrNumParticles := 7
  mCurrTime := 0
  mDiffTime := 0
  mPerlin := 0
  mCounter := 0
  mWriteMutex := false
  THREAD_UPDATE_INTERVAL_MILLISECONDS := 0
  mIsThreadDead := true
  mFormat := EmitterFormat.default
  mMaxParticles := 3
  mRandCalls := 0

/-- Readings of the application at the time of `setup`: time zero, sixty frames a second. -/
def clockZero : SetupClock where
  elapsedSeconds := 0
  frameRate := 60
  elapsedFrames := 0
  randInt := 0

/-- A valid configuration whose product of rate and lifespan is not an integer: one particle a
second, half a second of life. -/
def halfFormat : EmitterFormat :=
  { EmitterFormat.default with particlesPerSecond := 1, particleLifespanSeconds := 1 / 2 }

/-- A configuration with a negative emission rate and a negative lifespan. -/
def badFormat : EmitterFormat :=
  { EmitterFormat.default with particlesPerSecond := -5, particleLifespanSeconds := -1 }

/-- A valid configuration with a lifespan of a hundredth of a second, shorter than one step of
`lifeOps`. -/
def shortLifeFormat : EmitterFormat :=
  { EmitterFormat.default with particleLifespanSeconds := 1 / 100 }

/-- An emitter that was set up with `shortLifeFormat` and ran two iterations of `update`, a
sixtieth of a second apart. -/
def usedEmitter : Emitter ℚ :=
  update lifeEnv [(1 / 60, 1 / 60), (2 / 60, 2 / 60)]
    (setup (Emitter.construct junkEmitter) shortLifeFormat clockZero)

/-- An emitter whose `mWriteMutex` is held, as it is while an iteration of `update` runs. -/
def lockedEmitter : Emitter ℚ :=
  { setup (Emitter.construct junkEmitter) EmitterFormat.default clockZero with
    mWriteMutex := true }

/-- The count equals the number of stored particles and is at most the capacity. -/
def PoolInv {α : Type} (e : Emitter α) : Prop :=
  (e.mParticles.length : Int) = e.mCurrNumParticles ∧ e.mCurrNumParticles ≤ e.mMaxParticles

/-- Three pairs of clock readings, a sixtieth of a second apart. -/
def threeTicks : List (ℚ × ℚ) := [(1 / 60, 1 / 60), (2 / 60, 2 / 60), (3 / 60, 3 / 60)]

/-- The purgatory list has no entry twice, and each entry is the position of a stored particle
that has `mIsInPurgatory` set and `mIsDead` clear. -/
def PurgInv {α : Type} (e : Emitter α) : Prop :=
  e.mPurgParticles.Nodup ∧
  ∀ i ∈ e.mPurgParticles,
    ∃ p, e.mParticles[i]? = some p ∧ p.mIsInPurgatory = true ∧ p.mIsDead = false

/-- The state after the first iteration of an emitter set up with `shortLifeFormat`: the
particle created in that iteration used up its life in its first `update`. -/
def expiredEmitter : Emitter ℚ :=
  tick lifeEnv (setup (Emitter.construct junkEmitter) shortLifeFormat clockZero) (1 / 60) (1 / 60)

/-- The number of particles the specification says `addParticles(n)` creates: the smaller of
`n` and the free capacity `mMaxParticles - mCurrNumParticles`. -/
def createdCount {α : Type} (e : Emitter α) (n : Nat) : Nat :=
  min n (e.mMaxParticles - e.mCurrNumParticles).toNat

/-- The number of purgatory references the specification says `addParticles(n)` re-uses: the
smaller of the size of the purgatory list and the requests left after the creations. -/
def recycledCount {α : Type} (e : Emitter α) (n : Nat) : Nat :=
  min e.mPurgParticles.length (n - createdCount e n)

/-- An emitter one below capacity with three particles, two of them referenced by the
purgatory list. -/
def crowdedEmitter : Emitter ℚ :=
  { setup (Emitter.construct junkEmitter) EmitterFormat.default clockZero with
    mParticles := [⟨false, true, 0⟩, ⟨false, false, 1⟩, ⟨false, true, 0⟩]
    mPurgParticles := [0, 2]
    mCurrNumParticles := 3
    mMaxParticles := 4 }

/-- The clock readings of `n` iterations that are 16 ms apart, the first one 16 ms after
`t0`; each iteration reads the same time at its top and at its end. -/
def scenarioClock (t0 : ℚ) (n : Nat) : List (ℚ × ℚ) :=
  (List.range n).map fun i => (t0 + 16 / 1000 * ((i : ℚ) + 1), t0 + 16 / 1000 * ((i : ℚ) + 1))

/-- An emitter in synchronized turbulence mode with a live particle, a particle in purgatory and
a live particle, its counter at 5. -/
def syncEmitter : Emitter ℚ :=
  { setup (Emitter.construct junkEmitter)
      { EmitterFormat.default with
        particlePerlinType := PERLIN_TYPE_SYNCHRONIZED, particleTurbulance := 1 / 2 }
      clockZero with
    mParticles := [⟨false, false, 1⟩, ⟨false, true, 0⟩, ⟨false, false, 2⟩]
    mPurgParticles := [1]
    mCurrNumParticles := 3
    mCounter := 5 }

/-- The same emitter with turbulence switched off. -/
def calmEmitter : Emitter ℚ :=
  { syncEmitter with
    mFormat := { syncEmitter.mFormat with particlePerlinType := PERLIN_TYPE_NONE } }

/-- Whether on each iteration of a run the emission rate `r` times the time elapsed since the
reference time (`prev` for the first iteration, then the end of the iteration before), both the
difference and the product computed in `double`, is less than one. -/
def slowClock (r : Int) : ℚ → List (ℚ × ℚ) → Bool
  | _, [] => true
  | prev, t :: ts => decide (f64 ((r : ℚ) * f64 (t.1 - prev)) < 1) && slowClock r t.2 ts

/-- A valid configuration with one particle a second and the `float` nearest to 0.99995 as
lifespan. -/
def nearOneFormat : EmitterFormat :=
  { EmitterFormat.default with
    particlesPerSecond := 1, particleLifespanSeconds := f32 (99995 / 100000) }

/-- A valid configuration with an emission rate of `INT_MAX` particles a second. -/
def hugeRateFormat : EmitterFormat :=
  { EmitterFormat.default with particlesPerSecond := 2147483647 }

/-- A valid configuration with an emission rate of `2^30` particles a second. -/
def bigRateFormat : EmitterFormat :=
  { EmitterFormat.default with particlesPerSecond := 1073741824 }

/-- A valid configuration with an emission rate of 3 particles a second. -/
def thirdFormat : EmitterFormat :=
  { EmitterFormat.default with particlesPerSecond := 3 }

/-- A valid configuration with an emission rate of 50 particles a second. -/
def slowFormat : EmitterFormat :=
  { EmitterFormat.default with particlesPerSecond := 50 }

/-- An emitter at capacity with three particles, the first and the last of them in purgatory
and referenced by the purgatory list. -/
def fullEmitter : Emitter ℚ :=
  { setup (Emitter.construct junkEmitter) EmitterFormat.default clockZero with
    mParticles := [⟨false, true, 0⟩, ⟨false, false, 1⟩, ⟨false, true, 0⟩]
    mPurgParticles := [0, 2]
    mCurrNumParticles := 3
    mMaxParticles := 3 }

/-- An emitter with a dead particle, a particle in purgatory and a live particle. -/
def mixedEmitter : Emitter ℚ :=
  { setup (Emitter.construct junkEmitter) EmitterFormat.default clockZero with
    mParticles := [⟨true, false, 0⟩, ⟨false, true, 0⟩, ⟨false, false, 1⟩]
    mPurgParticles := [1]
    mCurrNumParticles := 3 }

/-! ## The body of the loop of update, step by step -/

/-- The steps of the body of the loop `while (!mIsThreadDead)` of `Emitter::update`, in program
order.  `lock` is the construction of the `scoped_lock` at the top of the body, `unlock` its
destruction at the closing brace of the body. -/
inductive Action where
  | lock
  | readClock
  | applyPerlin
  | addParticles
  | sweep
  | recordTime
  | sleep
  | unlock
deriving DecidableEq

/-- The body of the loop of `Emitter::update`: its statements in the order of the source; the
`scoped_lock` declared first is destroyed last, after the call of `sleep`. -/
def updateBody : List Action :=
  [Action.lock, Action.readClock, Action.applyPerlin, Action.addParticles, Action.sweep,
    Action.recordTime, Action.sleep, Action.unlock]

/-- The effect of one step of the body of the loop of `update` on the emitter; `tStart` and
`tEnd` are the two readings of `getElapsedSeconds()`.  Sleeping changes nothing. -/
def step {α : Type} (env : Env α) (tStart tEnd : ℚ) (e : Emitter α) : Action → Emitter α
  | Action.lock => { e with mWriteMutex := true }
  | Action.readClock => { e with mDiffTime := f64 (tStart - e.mCurrTime) }
  | Action.applyPerlin => applyPerlin env e
  | Action.addParticles => addParticles env (spawnAmount e) e
  | Action.sweep => sweepPass env e
  | Action.recordTime => { e with mCurrTime := tEnd }
  | Action.sleep => e
  | Action.unlock => { e with mWriteMutex := false }

/-- The emitter after a list of steps. -/
def runActions {α : Type} (env : Env α) (tStart tEnd : ℚ) (e : Emitter α)
    (acts : List Action) : Emitter α :=
  acts.foldl (step env tStart tEnd) e

/-- The steps of the body of the loop of `update` that come before the call of `sleep`. -/
def beforeSleep : List Action := updateBody.takeWhile fun a => decide (a ≠ Action.sleep)

/-! ## Rounding -/

/-- With enough fuel the halvings count the logarithm to base 2. -/
theorem log2Aux_eq_log (fuel n : Nat) (h : n ≤ fuel) : log2Aux fuel n = Nat.log 2 n := by
  induction fuel generalizing n with
  | zero =>
    have : n = 0 := by omega
    subst this
    simp [log2Aux]
  | succ fuel ih =>
    unfold log2Aux
    split_ifs with h2
    · exact (Nat.log_of_lt h2).symm
    · have h2' : 2 ≤ n := by omega
      rw [Nat.log_of_one_lt_of_le (by norm_num) h2']
      rw [ih (n / 2) (by omega)]

/-- The position of the leading bit is the logarithm to base 2, rounded down. -/
theorem log2Nat_eq_log (n : Nat) : log2Nat n = Nat.log 2 n :=
  log2Aux_eq_log n n (le_refl n)

/-- The exponent of a positive rational is fixed by the two powers of 2 around it. -/
theorem int_log_eq_of_bounds {r : ℚ} {z : Int} (hr : 0 < r) (h1 : (2 : ℚ) ^ z ≤ r)
    (h2 : r < (2 : ℚ) ^ (z + 1)) : Int.log 2 r = z := by
  have a1 : z ≤ Int.log 2 r := (Int.zpow_le_iff_le_log (by norm_num) hr).mp h1
  have a2 : Int.log 2 r < z + 1 := (Int.lt_zpow_iff_log_lt (by norm_num) hr).mp h2
  omega

/-- The binary exponent of a non-zero rational is the logarithm to base 2 of its absolute
value, rounded down. -/
theorem log2Floor_eq_log (q : ℚ) (hq : q ≠ 0) : log2Floor q = Int.log 2 |q| := by
  have hpos : 0 < |q| := abs_pos.mpr hq
  have hn0 : q.num.natAbs ≠ 0 := by
    simpa using Rat.num_ne_zero.mpr hq
  have hd0 : q.den ≠ 0 := q.den_nz
  have habs : |q| = (q.num.natAbs : ℚ) / (q.den : ℚ) := by
    conv_lhs => rw [← Rat.num_div_den q]
    rw [abs_div, Nat.abs_cast]
    congr 1
    rw [← Int.cast_abs, Int.abs_eq_natAbs, Int.cast_natCast]
  have hdpos : (0 : ℚ) < (q.den : ℚ) := by exact_mod_cast Nat.pos_of_ne_zero hd0
  -- bounds on numerator and denominator
  have na : (2 : ℚ) ^ (log2Nat q.num.natAbs : Int) ≤ (q.num.natAbs : ℚ) := by
    rw [log2Nat_eq_log, zpow_natCast]
    exact_mod_cast Nat.pow_log_le_self 2 hn0
  have nb : (q.num.natAbs : ℚ) < (2 : ℚ) ^ ((log2Nat q.num.natAbs : Int) + 1) := by
    rw [log2Nat_eq_log]
    have := Nat.lt_pow_succ_log_self (b := 2) (by norm_num) q.num.natAbs
    have h' : (q.num.natAbs : ℚ) < (2 : ℚ) ^ (Nat.log 2 q.num.natAbs + 1) := by exact_mod_cast this
    rw [← zpow_natCast] at h'
    simpa using h'
  have da : (2 : ℚ) ^ (log2Nat q.den : Int) ≤ (q.den : ℚ) := by
    rw [log2Nat_eq_log, zpow_natCast]
    exact_mod_cast Nat.pow_log_le_self 2 hd0
  have db : (q.den : ℚ) < (2 : ℚ) ^ ((log2Nat q.den : Int) + 1) := by
    rw [log2Nat_eq_log]
    have := Nat.lt_pow_succ_log_self (b := 2) (by norm_num) q.den
    have h' : (q.den : ℚ) < (2 : ℚ) ^ (Nat.log 2 q.den + 1) := by exact_mod_cast this
    rw [← zpow_natCast] at h'
    simpa using h'
  have two_ne : (2 : ℚ) ≠ 0 := by norm_num
  -- the quotient lies strictly between 2^(e0 - 1) and 2^(e0 + 1)
  have lo : (2 : ℚ) ^ ((log2Nat q.num.natAbs : Int) - (log2Nat q.den : Int) - 1) ≤ |q| := by
    rw [habs, le_div_iff₀ hdpos]
    have hp : (0 : ℚ) < (2 : ℚ) ^ ((log2Nat q.num.natAbs : Int) - (log2Nat q.den : Int) - 1) :=
      zpow_pos (by norm_num) _
    calc (2 : ℚ) ^ ((log2Nat q.num.natAbs : Int) - (log2Nat q.den : Int) - 1) * (q.den : ℚ)
        ≤ (2 : ℚ) ^ ((log2Nat q.num.natAbs : Int) - (log2Nat q.den : Int) - 1)
            * (2 : ℚ) ^ ((log2Nat q.den : Int) + 1) :=
          mul_le_mul_of_nonneg_left db.le hp.le
      _ = (2 : ℚ) ^ (log2Nat q.num.natAbs : Int) := by
          rw [← zpow_add₀ two_ne]
          congr 1
          ring
      _ ≤ _ := na
  have hi : |q| < (2 : ℚ) ^ ((log2Nat q.num.natAbs : Int) - (log2Nat q.den : Int) + 1) := by
    rw [habs, div_lt_iff₀ hdpos]
    have hp : (0 : ℚ) < (2 : ℚ) ^ ((log2Nat q.num.natAbs : Int) - (log2Nat q.den : Int) + 1) :=
      zpow_pos (by norm_num) _
    calc (q.num.natAbs : ℚ) < (2 : ℚ) ^ ((log2Nat q.num.natAbs : Int) + 1) := nb
      _ = (2 : ℚ) ^ ((log2Nat q.num.natAbs : Int) - (log2Nat q.den : Int) + 1)
            * (2 : ℚ) ^ (log2Nat q.den : Int) := by
          rw [← zpow_add₀ two_ne]
          congr 1
          ring
      _ ≤ _ := mul_le_mul_of_nonneg_left da hp.le
  unfold log2Floor
  split_ifs with hc
  · exact (int_log_eq_of_bounds hpos hc hi).symm
  · refine (int_log_eq_of_bounds hpos lo ?_).symm
    have : (log2Nat q.num.natAbs : Int) - (log2Nat q.den : Int) - 1 + 1
        = (log2Nat q.num.natAbs : Int) - (log2Nat q.den : Int) := by ring
    rw [this]
    exact not_le.mp hc

/-- The exponent of the unit in the last place, by the logarithm to base 2. -/
theorem ulpExp_eq (p : Nat) (emin : Int) (q : ℚ) (hq : q ≠ 0) :
    ulpExp p emin q = max (Int.log 2 |q| - ((p : Int) - 1)) (emin - ((p : Int) - 1)) := by
  unfold ulpExp
  rw [log2Floor_eq_log q hq]

/-- Rounding to the nearest integer never goes below the floor. -/
theorem floor_le_roundHalfEven (x : ℚ) : ⌊x⌋ ≤ roundHalfEven x := by
  unfold roundHalfEven
  split_ifs <;> omega

/-- Rounding to the nearest integer never goes above the floor plus one. -/
theorem roundHalfEven_le_floor_succ (x : ℚ) : roundHalfEven x ≤ ⌊x⌋ + 1 := by
  unfold roundHalfEven
  split_ifs <;> omega

/-- An integer is rounded to itself. -/
theorem roundHalfEven_intCast (n : Int) : roundHalfEven (n : ℚ) = n := by
  unfold roundHalfEven
  simp

/-- Rounding to the nearest integer is monotone. -/
theorem roundHalfEven_mono {x y : ℚ} (h : x ≤ y) : roundHalfEven x ≤ roundHalfEven y := by
  have hfl : ⌊x⌋ ≤ ⌊y⌋ := Int.floor_mono h
  rcases lt_or_eq_of_le hfl with hlt | heq
  · calc roundHalfEven x ≤ ⌊x⌋ + 1 := roundHalfEven_le_floor_succ x
      _ ≤ ⌊y⌋ := by omega
      _ ≤ roundHalfEven y := floor_le_roundHalfEven y
  · have hxy : x - ⌊x⌋ ≤ y - ⌊y⌋ := by rw [heq]; linarith
    unfold roundHalfEven
    rw [heq]
    split_ifs <;> first | omega | (exfalso; linarith)

/-- A value that is at most an integer is rounded to at most that integer. -/
theorem roundHalfEven_le_of_le_intCast {x : ℚ} {n : Int} (h : x ≤ n) :
    roundHalfEven x ≤ n := by
  have := roundHalfEven_mono h
  rwa [roundHalfEven_intCast] at this

/-- A value that is at least an integer is rounded to at least that integer. -/
theorem le_roundHalfEven_of_intCast_le {x : ℚ} {n : Int} (h : (n : ℚ) ≤ x) :
    n ≤ roundHalfEven x := by
  have := roundHalfEven_mono h
  rwa [roundHalfEven_intCast] at this

/-- The rounded value of a non-negative value is not negative. -/
theorem roundBinary_nonneg (p : Nat) (emin : Int) (q : ℚ) (h : 0 ≤ q) :
    0 ≤ roundBinary p emin q := by
  unfold roundBinary
  split_ifs with h0
  · exact le_refl _
  · have hk : (0 : ℚ) < (2 : ℚ) ^ ulpExp p emin q := zpow_pos (by norm_num) _
    have hx : ((0 : Int) : ℚ) ≤ q / (2 : ℚ) ^ ulpExp p emin q := by
      simpa using div_nonneg h hk.le
    have := le_roundHalfEven_of_intCast_le hx
    exact mul_nonneg (by exact_mod_cast this) hk.le

/-- The unit in the last place does not shrink when a positive value grows. -/
theorem ulpExp_mono (p : Nat) (emin : Int) {x y : ℚ} (hx : 0 < x) (h : x ≤ y) :
    ulpExp p emin x ≤ ulpExp p emin y := by
  have hy : 0 < y := lt_of_lt_of_le hx h
  rw [ulpExp_eq p emin x hx.ne', ulpExp_eq p emin y hy.ne', abs_of_pos hx, abs_of_pos hy]
  have := Int.log_mono_right (b := 2) hx h
  omega

/-- Rounding in a binary format is monotone on the positive values. -/
theorem roundBinary_mono (p : Nat) (emin : Int) (hp : 1 ≤ p) {x y : ℚ} (hx : 0 < x)
    (h : x ≤ y) : roundBinary p emin x ≤ roundBinary p emin y := by
  have hy : 0 < y := lt_of_lt_of_le hx h
  have hk := ulpExp_mono p emin hx h
  unfold roundBinary
  rw [if_neg hx.ne', if_neg hy.ne']
  rcases lt_or_eq_of_le hk with hlt | heq
  · have hky : ulpExp p emin y = Int.log 2 y - ((p : Int) - 1) := by
      have : ulpExp p emin x ≥ emin - ((p : Int) - 1) := le_max_right _ _
      rw [ulpExp_eq p emin y hy.ne', abs_of_pos hy] at hlt ⊢
      omega
    have hkx : Int.log 2 x - ((p : Int) - 1) ≤ ulpExp p emin x := by
      rw [ulpExp_eq p emin x hx.ne', abs_of_pos hx]
      exact le_max_left _ _
    have hB1 : x < (2 : ℚ) ^ (Int.log 2 x + 1) := Int.lt_zpow_succ_log_self (by norm_num) x
    have hB2 : (2 : ℚ) ^ (Int.log 2 y) ≤ y := Int.zpow_log_le_self (by norm_num) hy
    have hlog : Int.log 2 x + 1 ≤ Int.log 2 y := by omega
    have hxB : x ≤ (2 : ℚ) ^ (Int.log 2 y) :=
      le_trans hB1.le (zpow_le_zpow_right₀ (by norm_num) hlog)
    have hposx : (0 : ℚ) < (2 : ℚ) ^ ulpExp p emin x := zpow_pos (by norm_num) _
    have hposy : (0 : ℚ) < (2 : ℚ) ^ ulpExp p emin y := zpow_pos (by norm_num) _
    have hnx : 0 ≤ Int.log 2 y - ulpExp p emin x := by omega
    have h1 : x / (2 : ℚ) ^ ulpExp p emin x
        ≤ (((2 : Int) ^ (Int.log 2 y - ulpExp p emin x).toNat : Int) : ℚ) := by
      rw [div_le_iff₀ hposx]
      push_cast
      rw [← zpow_natCast, Int.toNat_of_nonneg hnx, ← zpow_add₀ (by norm_num : (2 : ℚ) ≠ 0)]
      simpa using hxB
    have h1' := roundHalfEven_le_of_le_intCast h1
    have hleft : (roundHalfEven (x / (2 : ℚ) ^ ulpExp p emin x) : ℚ)
        * (2 : ℚ) ^ ulpExp p emin x ≤ (2 : ℚ) ^ (Int.log 2 y) := by
      have : ((roundHalfEven (x / (2 : ℚ) ^ ulpExp p emin x) : Int) : ℚ)
          ≤ (((2 : Int) ^ (Int.log 2 y - ulpExp p emin x).toNat : Int) : ℚ) := by
        exact_mod_cast h1'
      calc _ ≤ (((2 : Int) ^ (Int.log 2 y - ulpExp p emin x).toNat : Int) : ℚ)
              * (2 : ℚ) ^ ulpExp p emin x := mul_le_mul_of_nonneg_right this hposx.le
        _ = (2 : ℚ) ^ (Int.log 2 y) := by
          push_cast
          rw [← zpow_natCast, Int.toNat_of_nonneg hnx, ← zpow_add₀ (by norm_num : (2 : ℚ) ≠ 0)]
          simp
    have hny : 0 ≤ Int.log 2 y - ulpExp p emin y := by omega
    have h2 : (((2 : Int) ^ (Int.log 2 y - ulpExp p emin y).toNat : Int) : ℚ)
        ≤ y / (2 : ℚ) ^ ulpExp p emin y := by
      rw [le_div_iff₀ hposy]
      push_cast
      rw [← zpow_natCast, Int.toNat_of_nonneg hny, ← zpow_add₀ (by norm_num : (2 : ℚ) ≠ 0)]
      simpa using hB2
    have h2' := le_roundHalfEven_of_intCast_le h2
    have hright : (2 : ℚ) ^ (Int.log 2 y)
        ≤ (roundHalfEven (y / (2 : ℚ) ^ ulpExp p emin y) : ℚ) * (2 : ℚ) ^ ulpExp p emin y := by
      have : (((2 : Int) ^ (Int.log 2 y - ulpExp p emin y).toNat : Int) : ℚ)
          ≤ ((roundHalfEven (y / (2 : ℚ) ^ ulpExp p emin y) : Int) : ℚ) := by
        exact_mod_cast h2'
      calc (2 : ℚ) ^ (Int.log 2 y)
          = (((2 : Int) ^ (Int.log 2 y - ulpExp p emin y).toNat : Int) : ℚ)
              * (2 : ℚ) ^ ulpExp p emin y := by
            push_cast
            rw [← zpow_natCast, Int.toNat_of_nonneg hny,
              ← zpow_add₀ (by norm_num : (2 : ℚ) ≠ 0)]
            simp
        _ ≤ _ := mul_le_mul_of_nonneg_right this hposy.le
    exact le_trans hleft hright
  · rw [← heq]
    have hpos : (0 : ℚ) < (2 : ℚ) ^ ulpExp p emin x := zpow_pos (by norm_num) _
    have hdiv : x / (2 : ℚ) ^ ulpExp p emin x ≤ y / (2 : ℚ) ^ ulpExp p emin x :=
      div_le_div_of_nonneg_right h hpos.le
    have := roundHalfEven_mono hdiv
    exact mul_le_mul_of_nonneg_right (by exact_mod_cast this) hpos.le

/-- A `float` result of a non-negative exact value is not negative. -/
theorem f32_nonneg (q : ℚ) (h : 0 ≤ q) : 0 ≤ f32 q := roundBinary_nonneg 24 (-126) q h

/-! ## Conversion to `int` -/

/-- The discarded fraction: truncation of a non-negative value is its floor. -/
theorem tdiv_eq_floor_of_nonneg (q : ℚ) (h : 0 ≤ q) : Int.tdiv q.num q.den = ⌊q⌋ := by
  rw [Rat.floor_def, Int.tdiv_eq_ediv (Rat.num_nonneg.mpr h) (by exact_mod_cast Nat.zero_le _)]

/-- The conversion of a non-negative value below `2^31` is its floor. -/
theorem truncToInt_of_nonneg (q : ℚ) (h : 0 ≤ q) (hr : q < 2147483648) :
    truncToInt q = ⌊q⌋ := by
  have hfl : ⌊q⌋ < 2147483648 := Int.floor_lt.mpr (by exact_mod_cast hr)
  have h0 : 0 ≤ ⌊q⌋ := Int.floor_nonneg.mpr h
  unfold truncToInt
  rw [tdiv_eq_floor_of_nonneg q h, if_pos]
  constructor
  · unfold INT_MIN; omega
  · unfold INT_MAX; omega

/-- The conversion of a non-negative value below `2^31` is not negative. -/
theorem truncToInt_nonneg (q : ℚ) (h : 0 ≤ q) (hr : q < 2147483648) : 0 ≤ truncToInt q := by
  rw [truncToInt_of_nonneg q h hr]
  exact Int.floor_nonneg.mpr h

/-! ## setup -/

/-- The `float` value of `particlesPerSecond * particleLifespanSeconds + 2000` is not negative
for a non-negative rate and a positive lifespan. -/
theorem capacity_value_nonneg (f : EmitterFormat)
    (hr : 0 ≤ f.particlesPerSecond) (hL : 0 < f.particleLifespanSeconds) :
    0 ≤ f32 (f32 (f32 (f.particlesPerSecond : ℚ) * f.particleLifespanSeconds) + 2000) := by
  have hr' : (0 : ℚ) ≤ (f.particlesPerSecond : ℚ) := by exact_mod_cast hr
  have h1 := f32_nonneg _ hr'
  have h2 := f32_nonneg _ (mul_nonneg h1 hL.le)
  exact f32_nonneg _ (by linarith)

/-- C1 (amended): for an emission rate `r ≥ 0` and a lifespan `L > 0` such that the `float`
value `v` of `r * L + 2000` (the rate converted to `float`, the product and the sum each
rounded) is below `2^31`, `setup` sets `mMaxParticles` to `floor(v)`: the conversion to `int`
discards the fractional part, it does not round up.  Where the three roundings are exact this
is `floor(r * L) + 2000`. -/
theorem setup_capacity_floor {α : Type} (e : Emitter α) (f : EmitterFormat) (w : SetupClock)
    (hr : 0 ≤ f.particlesPerSecond) (hL : 0 < f.particleLifespanSeconds)
    (hrange :
      f32 (f32 (f32 (f.particlesPerSecond : ℚ) * f.particleLifespanSeconds) + 2000)
        < 2147483648) :
    (setup e f w).mMaxParticles
      = ⌊f32 (f32 (f32 (f.particlesPerSecond : ℚ) * f.particleLifespanSeconds) + 2000)⌋ ∧
    (f32 (f.particlesPerSecond : ℚ) = (f.particlesPerSecond : ℚ) →
      f32 ((f.particlesPerSecond : ℚ) * f.particleLifespanSeconds)
        = (f.particlesPerSecond : ℚ) * f.particleLifespanSeconds →
      f32 ((f.particlesPerSecond : ℚ) * f.particleLifespanSeconds + 2000)
        = (f.particlesPerSecond : ℚ) * f.particleLifespanSeconds + 2000 →
      (setup e f w).mMaxParticles
        = ⌊(f.particlesPerSecond : ℚ) * f.particleLifespanSeconds⌋ + 2000) := by
  have hv := capacity_value_nonneg f hr hL
  have hmax : (setup e f w).mMaxParticles
      = ⌊f32 (f32 (f32 (f.particlesPerSecond : ℚ) * f.particleLifespanSeconds) + 2000)⌋ :=
    truncToInt_of_nonneg _ hv hrange
  refine ⟨hmax, ?_⟩
  intro h1 h2 h3
  rw [hmax, h1, h2, h3]
  exact_mod_cast Int.floor_add_int ((f.particlesPerSecond : ℚ) * f.particleLifespanSeconds) 2000

/-- C1, witness: the amended capacity formula at one particle a second and half a second of
life, where every rounding is exact. -/
theorem setup_capacity_floor_witness :
    0 ≤ halfFormat.particlesPerSecond ∧ 0 < halfFormat.particleLifespanSeconds ∧
    f32 (f32 (f32 (halfFormat.particlesPerSecond : ℚ) * halfFormat.particleLifespanSeconds)
      + 2000) < 2147483648 ∧
    (setup (Emitter.construct junkEmitter) halfFormat clockZero).mMaxParticles
      = ⌊(halfFormat.particlesPerSecond : ℚ) * halfFormat.particleLifespanSeconds⌋ + 2000 :=
  ⟨by decide, by decide!, by decide!,
    (setup_capacity_floor (Emitter.construct junkEmitter) halfFormat clockZero (by decide)
      (by decide!) (by decide!)).2 (by decide!) (by decide!) (by decide!)⟩

/-- C1, counterexample: at one particle a second and half a second of life `setup` gives the
capacity 2000, while `ceil(r * L) + 2000` is 2001. -/
theorem setup_capacity_not_ceil :
    (setup (Emitter.construct junkEmitter) halfFormat clockZero).mMaxParticles = 2000 ∧
    ⌈(halfFormat.particlesPerSecond : ℚ) * halfFormat.particleLifespanSeconds⌉ + 2000 = 2001 ∧
    (setup (Emitter.construct junkEmitter) halfFormat clockZero).mMaxParticles
      ≠ ⌈(halfFormat.particlesPerSecond : ℚ) * halfFormat.particleLifespanSeconds⌉ + 2000 := by
  have h : ⌈(halfFormat.particlesPerSecond : ℚ) * halfFormat.particleLifespanSeconds⌉ = 1 := by
    rw [Int.ceil_eq_iff]
    norm_num [halfFormat]
  have h0 : (setup (Emitter.construct junkEmitter) halfFormat clockZero).mMaxParticles = 2000 := by
    decide!
  refine ⟨h0, by rw [h]; rfl, ?_⟩
  rw [h0, h]
  decide

/-- The sum is rounded before the conversion: with one particle a second and a lifespan of
`0.99995f` the `float` sum `r * L + 2000` is 2001, so `setup` gives the capacity 2001, while
`floor(r * L) + 2000` is 2000. -/
theorem setup_capacity_rounded_sum :
    0 ≤ nearOneFormat.particlesPerSecond ∧ 0 < nearOneFormat.particleLifespanSeconds ∧
    f32 (f32 (f32 (nearOneFormat.particlesPerSecond : ℚ)
      * nearOneFormat.particleLifespanSeconds) + 2000) = 2001 ∧
    (setup (Emitter.construct junkEmitter) nearOneFormat clockZero).mMaxParticles = 2001 ∧
    ⌊(nearOneFormat.particlesPerSecond : ℚ) * nearOneFormat.particleLifespanSeconds⌋ + 2000
      = 2000 := by
  decide!

/-- C6 (amended): `setup` validates nothing.  For every configuration, also one with a
non-positive lifespan or a negative emission rate, it installs the configuration, sets
`mMaxParticles` to the conversion to `int` of the `float` value of `r * L + 2000` derived from
it, resets the count to 0, sets `mIsThreadDead` to false and leaves both lists as they are. -/
theorem setup_installs_any_format {α : Type} (e : Emitter α) (f : EmitterFormat)
    (w : SetupClock) :
    (setup e f w).mFormat = f ∧
    (setup e f w).mMaxParticles
      = truncToInt
          (f32 (f32 (f32 (f.particlesPerSecond : ℚ) * f.particleLifespanSeconds) + 2000)) ∧
    (setup e f w).mCurrNumParticles = 0 ∧
    (setup e f w).mIsThreadDead = false ∧
    (setup e f w).mParticles = e.mParticles ∧
    (setup e f w).mPurgParticles = e.mPurgParticles :=
  ⟨rfl, rfl, rfl, rfl, rfl, rfl⟩

/-- C6, counterexample: a configuration with emission rate `-5` and lifespan `-1` is not valid,
and `setup` installs it and the capacity 2005 derived from it. -/
theorem setup_accepts_bad_format :
    ¬ validFormat badFormat ∧
    (setup (Emitter.construct junkEmitter) badFormat clockZero).mFormat = badFormat ∧
    (setup (Emitter.construct junkEmitter) badFormat clockZero).mMaxParticles = 2005 ∧
    (Emitter.construct junkEmitter).mMaxParticles = 3 := by
  refine ⟨?_, rfl, by decide!, rfl⟩
  intro h
  have h1 : (0 : ℚ) < -1 := h.1
  norm_num at h1

/-- C7, the code at the failing input: an emitter that ran two iterations holds two particles
and one purgatory reference; after another `setup` both lists are as they were, while the count
is 0. -/
theorem setup_keeps_stale_particles :
    usedEmitter.mParticles.length = 2 ∧ usedEmitter.mPurgParticles = [0] ∧
    (setup usedEmitter EmitterFormat.default clockZero).mParticles.length = 2 ∧
    (setup usedEmitter EmitterFormat.default clockZero).mPurgParticles = [0] ∧
    (setup usedEmitter EmitterFormat.default clockZero).mCurrNumParticles = 0 ∧
    (setup (Emitter.construct junkEmitter) EmitterFormat.default clockZero).mParticles = [] := by
  decide!

/-! ## setPosition -/

/-- C8, the code at the failing input: with `mWriteMutex` held, `setPosition` writes the new
position all the same. -/
theorem setPosition_writes_when_locked :
    lockedEmitter.mWriteMutex = true ∧
    getPosition lockedEmitter = ⟨0, 0, 0⟩ ∧
    getPosition (setPosition lockedEmitter ⟨1, 2, 3⟩) = ⟨1, 2, 3⟩ := by
  decide!

/-! ## Members that the steps leave alone -/

theorem writeAt_length {β : Type} (f : β → β) (i : Nat) (l : List β) :
    (writeAt f i l).length = l.length := by
  induction l generalizing i with
  | nil => cases i <;> rfl
  | cons x xs ih =>
    cases i with
    | zero => rfl
    | succ i => simp [writeAt, ih]

/-- The loop over the particles maps `sweepOne` over the list. -/
theorem sweepLoop_fst {α : Type} (env : Env α) (g : Vec3f) (i : Nat) (ps : List (Particle α))
    (purg : List Nat) : (sweepLoop env g i ps purg).1 = ps.map (sweepOne env g) := by
  induction ps generalizing i purg with
  | nil => rfl
  | cons p ps ih =>
    unfold sweepLoop
    by_cases hd : p.mIsDead = true
    · simp [hd, sweepOne, ih]
    · by_cases hp : p.mIsInPurgatory = true
      · simp [hd, hp, sweepOne, ih]
      · simp [hd, hp, sweepOne, ih]

/-- The loop over the particles appends the positions of the dead particles, in order, to the
purgatory list. -/
theorem sweepLoop_snd {α : Type} (env : Env α) (g : Vec3f) (i : Nat) (ps : List (Particle α))
    (purg : List Nat) : (sweepLoop env g i ps purg).2 = purg ++ deadPositions i ps := by
  induction ps generalizing i purg with
  | nil => simp [sweepLoop, deadPositions]
  | cons p ps ih =>
    unfold sweepLoop deadPositions
    by_cases hd : p.mIsDead = true
    · simp [hd, ih]
    · by_cases hp : p.mIsInPurgatory = true
      · simp [hd, hp, ih]
      · simp [hd, hp, ih]

/-- The function `applyPerlin` keeps the number of particles. -/
theorem applyPerlin_length {α : Type} (env : Env α) (e : Emitter α) :
    (applyPerlin env e).mParticles.length = e.mParticles.length := by
  unfold applyPerlin
  split_ifs <;> simp

/-- The function `applyPerlin` changes only `mParticles` and `mCounter`. -/
theorem applyPerlin_frame {α : Type} (env : Env α) (e : Emitter α) :
    (applyPerlin env e).mCurrNumParticles = e.mCurrNumParticles ∧
    (applyPerlin env e).mMaxParticles = e.mMaxParticles ∧
    (applyPerlin env e).mPurgParticles = e.mPurgParticles ∧
    (applyPerlin env e).mFormat = e.mFormat ∧
    (applyPerlin env e).mDiffTime = e.mDiffTime ∧
    (applyPerlin env e).mCurrTime = e.mCurrTime ∧
    (applyPerlin env e).mIsThreadDead = e.mIsThreadDead ∧
    (applyPerlin env e).mRandCalls = e.mRandCalls := by
  unfold applyPerlin
  split_ifs <;> simp

/-- One iteration of the loop of `addParticles` keeps the capacity, the configuration, the times
and the thread flag. -/
theorem addParticlesBody_frame {α : Type} (env : Env α) (e : Emitter α) :
    (addParticlesBody env e).mMaxParticles = e.mMaxParticles ∧
    (addParticlesBody env e).mFormat = e.mFormat ∧
    (addParticlesBody env e).mDiffTime = e.mDiffTime ∧
    (addParticlesBody env e).mCurrTime = e.mCurrTime ∧
    (addParticlesBody env e).mIsThreadDead = e.mIsThreadDead := by
  unfold addParticlesBody
  split_ifs
  · simp [createParticle]
  · cases e.mPurgParticles.getLast? <;> simp [recycleParticle]

/-- The loop of `addParticles` keeps the capacity, the configuration, the times and the thread
flag. -/
theorem addParticlesLoop_frame {α : Type} (env : Env α) (n : Nat) (e : Emitter α) :
    (addParticlesLoop env n e).mMaxParticles = e.mMaxParticles ∧
    (addParticlesLoop env n e).mFormat = e.mFormat ∧
    (addParticlesLoop env n e).mDiffTime = e.mDiffTime ∧
    (addParticlesLoop env n e).mCurrTime = e.mCurrTime ∧
    (addParticlesLoop env n e).mIsThreadDead = e.mIsThreadDead := by
  induction n generalizing e with
  | zero => simp [addParticlesLoop]
  | succ n ih =>
    have h := addParticlesBody_frame env e
    have h2 := ih (addParticlesBody env e)
    simp only [addParticlesLoop]
    refine ⟨h2.1.trans h.1, h2.2.1.trans h.2.1, h2.2.2.1.trans h.2.2.1,
      h2.2.2.2.1.trans h.2.2.2.1, h2.2.2.2.2.trans h.2.2.2.2⟩

/-- An iteration of `update` keeps the capacity, the configuration and the thread flag, and stores
its second clock reading in `mCurrTime`. -/
theorem tick_frame {α : Type} (env : Env α) (e : Emitter α) (a b : ℚ) :
    (tick env e a b).mMaxParticles = e.mMaxParticles ∧
    (tick env e a b).mFormat = e.mFormat ∧
    (tick env e a b).mIsThreadDead = e.mIsThreadDead ∧
    (tick env e a b).mCurrTime = b := by
  have h1 := addParticlesLoop_frame env
    (spawnAmount (applyPerlin env { e with mDiffTime := f64 (a - e.mCurrTime) })).toNat
    (applyPerlin env { e with mDiffTime := f64 (a - e.mCurrTime) })
  have h2 := applyPerlin_frame env { e with mDiffTime := f64 (a - e.mCurrTime) }
  refine ⟨?_, ?_, ?_, rfl⟩
  · show (addParticlesLoop env _ _).mMaxParticles = _
    rw [h1.1, h2.2.1]
  · show (addParticlesLoop env _ _).mFormat = _
    rw [h1.2.1, h2.2.2.2.1]
  · show (addParticlesLoop env _ _).mIsThreadDead = _
    rw [h1.2.2.2.2, h2.2.2.2.2.2.2.1]

/-- States that started with `mIsThreadDead` clear run one iteration for each pair of clock
readings. -/
theorem update_eq_foldl {α : Type} (env : Env α) (ts : List (ℚ × ℚ)) (e : Emitter α)
    (h : e.mIsThreadDead = false) :
    update env ts e = ts.foldl (fun s t => tick env s t.1 t.2) e := by
  induction ts generalizing e with
  | nil => rfl
  | cons t ts ih =>
    simp only [update, h, List.foldl_cons]
    exact ih _ ((tick_frame env e t.1 t.2).2.2.1.trans h)

/-! ## The count and the capacity -/

theorem poolInv_addParticlesBody {α : Type} (env : Env α) (e : Emitter α) (h : PoolInv e) :
    PoolInv (addParticlesBody env e) := by
  unfold addParticlesBody
  split_ifs with hlt
  · refine ⟨?_, ?_⟩
    · simp only [createParticle, List.length_append, List.length_singleton]
      have := h.1
      push_cast
      omega
    · simp only [createParticle]
      omega
  · cases hl : e.mPurgParticles.getLast? with
    | none => exact h
    | some i =>
      refine ⟨?_, h.2⟩
      simp only [recycleParticle, writeAt_length]
      exact h.1

/-- The loop of `addParticles` keeps `PoolInv`. -/
theorem poolInv_addParticlesLoop {α : Type} (env : Env α) (n : Nat) (e : Emitter α)
    (h : PoolInv e) : PoolInv (addParticlesLoop env n e) := by
  induction n generalizing e with
  | zero => exact h
  | succ n ih => exact ih _ (poolInv_addParticlesBody env e h)

/-- The function `applyPerlin` keeps `PoolInv`. -/
theorem poolInv_applyPerlin {α : Type} (env : Env α) (e : Emitter α) (h : PoolInv e) :
    PoolInv (applyPerlin env e) := by
  have hf := applyPerlin_frame env e
  unfold PoolInv
  rw [applyPerlin_length, hf.1, hf.2.1]
  exact h

/-- The loop over the particles keeps `PoolInv`. -/
theorem poolInv_sweepPass {α : Type} (env : Env α) (e : Emitter α) (h : PoolInv e) :
    PoolInv (sweepPass env e) := by
  refine ⟨?_, h.2⟩
  show ((sweepLoop env _ 0 e.mParticles e.mPurgParticles).1.length : Int) = _
  rw [sweepLoop_fst, List.length_map]
  exact h.1

/-- An iteration of `update` keeps `PoolInv`. -/
theorem poolInv_tick {α : Type} (env : Env α) (e : Emitter α) (a b : ℚ) (h : PoolInv e) :
    PoolInv (tick env e a b) := by
  have h1 : PoolInv { e with mDiffTime := f64 (a - e.mCurrTime) } := h
  have h2 := poolInv_sweepPass env _
    (poolInv_addParticlesLoop env
      (spawnAmount (applyPerlin env { e with mDiffTime := f64 (a - e.mCurrTime) })).toNat _
      (poolInv_applyPerlin env _ h1))
  exact h2

/-- Every run of `update` keeps `PoolInv`. -/
theorem poolInv_update {α : Type} (env : Env α) (ts : List (ℚ × ℚ)) (e : Emitter α)
    (h : PoolInv e) : PoolInv (update env ts e) := by
  induction ts generalizing e with
  | nil => exact h
  | cons t ts ih =>
    unfold update
    split_ifs
    · exact h
    · exact ih _ (poolInv_tick env e t.1 t.2 h)

/-- Every run of `update` keeps the capacity. -/
theorem update_maxParticles {α : Type} (env : Env α) (ts : List (ℚ × ℚ)) (e : Emitter α) :
    (update env ts e).mMaxParticles = e.mMaxParticles := by
  induction ts generalizing e with
  | nil => rfl
  | cons t ts ih =>
    unfold update
    split_ifs
    · rfl
    · rw [ih, (tick_frame env e t.1 t.2).1]

/-- The capacity that `setup` computes from a non-negative rate and a positive lifespan is not
negative, when the `float` value it converts is below `2^31`. -/
theorem setup_capacity_nonneg {α : Type} (e : Emitter α) (f : EmitterFormat) (w : SetupClock)
    (hr : 0 ≤ f.particlesPerSecond) (hL : 0 < f.particleLifespanSeconds)
    (hrange :
      f32 (f32 (f32 (f.particlesPerSecond : ℚ) * f.particleLifespanSeconds) + 2000)
        < 2147483648) :
    0 ≤ (setup e f w).mMaxParticles :=
  truncToInt_nonneg _ (capacity_value_nonneg f hr hL) hrange

/-- C2 (amended): from the state that `setup` produces on a freshly constructed emitter, with
an emission rate `r ≥ 0` and a lifespan `L > 0` such that the `float` value of `r * L + 2000`
that `setup` converts to `int` is below `2^31`, every run of `update` (any clock readings, any
particle type) executes one iteration for each pair of readings and ends in a state where the
length of `mParticles` equals `mCurrNumParticles`, which is at most `mMaxParticles`, the
capacity that `setup` computed. -/
theorem count_never_exceeds_capacity {α : Type} (env : Env α) (junk : Emitter α)
    (f : EmitterFormat) (w : SetupClock) (ts : List (ℚ × ℚ))
    (hr : 0 ≤ f.particlesPerSecond) (hL : 0 < f.particleLifespanSeconds)
    (hrange :
      f32 (f32 (f32 (f.particlesPerSecond : ℚ) * f.particleLifespanSeconds) + 2000)
        < 2147483648) :
    update env ts (setup (Emitter.construct junk) f w)
      = ts.foldl (fun s t => tick env s t.1 t.2) (setup (Emitter.construct junk) f w) ∧
    ((update env ts (setup (Emitter.construct junk) f w)).mParticles.length : Int)
      = (update env ts (setup (Emitter.construct junk) f w)).mCurrNumParticles ∧
    (update env ts (setup (Emitter.construct junk) f w)).mCurrNumParticles
      ≤ (update env ts (setup (Emitter.construct junk) f w)).mMaxParticles ∧
    (update env ts (setup (Emitter.construct junk) f w)).mMaxParticles
      = (setup (Emitter.construct junk) f w).mMaxParticles := by
  have h0 : PoolInv (setup (Emitter.construct junk) f w) :=
    ⟨rfl, setup_capacity_nonneg _ f w hr hL hrange⟩
  have h := poolInv_update env ts _ h0
  exact ⟨update_eq_foldl env ts _ rfl, h.1, h.2, update_maxParticles env ts _⟩

/-- C2, witness: the default configuration, the particle type `lifeOps` and three iterations. -/
theorem count_never_exceeds_capacity_witness :
    0 ≤ EmitterFormat.default.particlesPerSecond ∧
    0 < EmitterFormat.default.particleLifespanSeconds ∧
    f32 (f32 (f32 (EmitterFormat.default.particlesPerSecond : ℚ)
      * EmitterFormat.default.particleLifespanSeconds) + 2000) < 2147483648 ∧
    (update lifeEnv threeTicks
      (setup (Emitter.construct junkEmitter) EmitterFormat.default clockZero)).mCurrNumParticles
      ≤ (update lifeEnv threeTicks
        (setup (Emitter.construct junkEmitter) EmitterFormat.default clockZero)).mMaxParticles :=
  ⟨by decide, by decide!, by decide!,
    (count_never_exceeds_capacity lifeEnv junkEmitter EmitterFormat.default clockZero
      threeTicks (by decide) (by decide!) (by decide!)).2.2.1⟩

/-- C2, counterexample: with an emission rate of `INT_MAX` and the default lifespan of 4 s the
`float` value of `r * L + 2000` is `2^33 + 2048`, its conversion to `int` gives `INT_MIN`, and
right after `setup` the count 0 of the empty pool is above `mMaxParticles`; it still is after an
iteration of `update` that requests one particle. -/
theorem count_above_overflowed_capacity :
    0 ≤ hugeRateFormat.particlesPerSecond ∧ 0 < hugeRateFormat.particleLifespanSeconds ∧
    f32 (f32 (f32 (hugeRateFormat.particlesPerSecond : ℚ)
      * hugeRateFormat.particleLifespanSeconds) + 2000) = 8589936640 ∧
    (setup (Emitter.construct junkEmitter) hugeRateFormat clockZero).mMaxParticles
      = -2147483648 ∧
    (setup (Emitter.construct junkEmitter) hugeRateFormat clockZero).mCurrNumParticles = 0 ∧
    (setup (Emitter.construct junkEmitter) hugeRateFormat clockZero).mParticles.length = 0 ∧
    ¬ ((setup (Emitter.construct junkEmitter) hugeRateFormat clockZero).mCurrNumParticles
      ≤ (setup (Emitter.construct junkEmitter) hugeRateFormat clockZero).mMaxParticles) ∧
    spawnAmount (applyPerlin lifeEnv
      { setup (Emitter.construct junkEmitter) hugeRateFormat clockZero with
        mDiffTime := f64 (1 / 1073741824 - clockZero.elapsedSeconds) }) = 1 ∧
    (update lifeEnv [(1 / 1073741824, 1 / 1073741824)]
      (setup (Emitter.construct junkEmitter) hugeRateFormat clockZero)).mParticles.length = 0 ∧
    ¬ ((update lifeEnv [(1 / 1073741824, 1 / 1073741824)]
        (setup (Emitter.construct junkEmitter) hugeRateFormat clockZero)).mCurrNumParticles
      ≤ (update lifeEnv [(1 / 1073741824, 1 / 1073741824)]
        (setup (Emitter.construct junkEmitter) hugeRateFormat clockZero)).mMaxParticles) := by
  decide!

/-! ## The purgatory list -/

theorem writeAt_getElem?_ne {β : Type} (f : β → β) (i j : Nat) (l : List β) (h : j ≠ i) :
    (writeAt f i l)[j]? = l[j]? := by
  induction l generalizing i j with
  | nil => cases i <;> rfl
  | cons x xs ih =>
    cases i with
    | zero =>
      cases j with
      | zero => exact absurd rfl h
      | succ j => simp [writeAt]
    | succ i =>
      cases j with
      | zero => simp [writeAt]
      | succ j =>
        simp only [writeAt, List.getElem?_cons_succ]
        exact ih i j (fun hh => h (by rw [hh]))

/-- A write through a pointer replaces the element it points to by its image. -/
theorem writeAt_getElem?_eq {β : Type} (f : β → β) (i : Nat) (l : List β) :
    (writeAt f i l)[i]? = (l[i]?).map f := by
  induction l generalizing i with
  | nil => cases i <;> rfl
  | cons x xs ih =>
    cases i with
    | zero => simp [writeAt]
    | succ i =>
      simp only [writeAt, List.getElem?_cons_succ]
      exact ih i

/-- Every member of `deadPositions i ps` is the position of a particle with `mIsDead` set. -/
theorem mem_deadPositions {α : Type} (i j : Nat) (ps : List (Particle α))
    (h : j ∈ deadPositions i ps) :
    i ≤ j ∧ ∃ p, ps[j - i]? = some p ∧ p.mIsDead = true := by
  induction ps generalizing i with
  | nil => simp [deadPositions] at h
  | cons p ps ih =>
    unfold deadPositions at h
    by_cases hd : p.mIsDead = true
    · rw [if_pos hd] at h
      rcases List.mem_cons.mp h with h | h
      · subst h
        exact ⟨le_refl _, p, by simp, hd⟩
      · obtain ⟨h1, q, h2, h3⟩ := ih (i + 1) h
        refine ⟨by omega, q, ?_, h3⟩
        have : j - i = (j - (i + 1)) + 1 := by omega
        rw [this, List.getElem?_cons_succ]
        exact h2
    · rw [if_neg hd] at h
      obtain ⟨h1, q, h2, h3⟩ := ih (i + 1) h
      refine ⟨by omega, q, ?_, h3⟩
      have : j - i = (j - (i + 1)) + 1 := by omega
      rw [this, List.getElem?_cons_succ]
      exact h2

/-- The list `deadPositions i ps` has no position twice. -/
theorem deadPositions_nodup {α : Type} (i : Nat) (ps : List (Particle α)) :
    (deadPositions i ps).Nodup := by
  induction ps generalizing i with
  | nil => simp [deadPositions]
  | cons p ps ih =>
    unfold deadPositions
    split_ifs
    · refine List.nodup_cons.mpr ⟨?_, ih (i + 1)⟩
      intro h
      have := (mem_deadPositions (i + 1) i ps h).1
      omega
    · exact ih (i + 1)

/-- The function `applyPerlin` keeps `PurgInv`: it touches live particles only. -/
theorem purgInv_applyPerlin {α : Type} (env : Env α) (e : Emitter α) (h : PurgInv e) :
    PurgInv (applyPerlin env e) := by
  have key : ∀ f : Particle α → Particle α, (∀ p, isLive p = false → f p = p) →
      PurgInv { e with mParticles := e.mParticles.map f } := by
    intro f hf
    refine ⟨h.1, ?_⟩
    intro i hi
    obtain ⟨p, h1, h2, h3⟩ := h.2 i hi
    refine ⟨p, ?_, h2, h3⟩
    show (e.mParticles.map f)[i]? = some p
    rw [List.getElem?_map, h1]
    simp [hf p (by simp [isLive, h2])]
  unfold applyPerlin
  split_ifs
  · exact h
  · exact key _ (fun p hp => by simp [hp])
  · exact key (fun p => if isLive p then
      env.ops.applyPerlinVec p e.mFormat.particleTurbulance (noiseVector env e) else p)
      (fun p hp => by simp [hp])
  · exact h

/-- One iteration of the loop of `addParticles` keeps `PurgInv`. -/
theorem purgInv_addParticlesBody {α : Type} (env : Env α) (e : Emitter α) (h : PurgInv e) :
    PurgInv (addParticlesBody env e) := by
  unfold addParticlesBody
  split_ifs with hlt
  · refine ⟨h.1, ?_⟩
    intro i hi
    obtain ⟨p, h1, h2, h3⟩ := h.2 i hi
    refine ⟨p, ?_, h2, h3⟩
    show (e.mParticles ++ _)[i]? = some p
    obtain ⟨hlen, _⟩ := List.getElem?_eq_some.mp h1
    rw [List.getElem?_append_left hlen]
    exact h1
  · cases hl : e.mPurgParticles.getLast? with
    | none => exact h
    | some k =>
      have hsplit : e.mPurgParticles.dropLast ++ [k] = e.mPurgParticles :=
        List.dropLast_append_getLast? k (by rw [hl]; rfl)
      have hnd : (e.mPurgParticles.dropLast ++ [k]).Nodup := by rw [hsplit]; exact h.1
      rw [List.nodup_append] at hnd
      refine ⟨hnd.1, ?_⟩
      intro i hi
      have hik : i ≠ k := by
        intro hik
        exact hnd.2.2 hi (by rw [hik]; exact List.mem_singleton_self k)
      obtain ⟨p, h1, h2, h3⟩ := h.2 i (List.mem_of_mem_dropLast hi)
      refine ⟨p, ?_, h2, h3⟩
      show (writeAt _ k e.mParticles)[i]? = some p
      rw [writeAt_getElem?_ne _ k i _ hik]
      exact h1

/-- The loop of `addParticles` keeps `PurgInv`. -/
theorem purgInv_addParticlesLoop {α : Type} (env : Env α) (n : Nat) (e : Emitter α)
    (h : PurgInv e) : PurgInv (addParticlesLoop env n e) := by
  induction n generalizing e with
  | zero => exact h
  | succ n ih => exact ih _ (purgInv_addParticlesBody env e h)

/-- The loop over the particles keeps `PurgInv`: the particles it pushes are dead, the ones already
referenced are not. -/
theorem purgInv_sweepPass {α : Type} (env : Env α) (e : Emitter α) (h : PurgInv e) :
    PurgInv (sweepPass env e) := by
  unfold PurgInv sweepPass
  simp only [sweepLoop_fst, sweepLoop_snd]
  constructor
  · rw [List.nodup_append]
    refine ⟨h.1, deadPositions_nodup 0 _, ?_⟩
    intro i hi hd
    obtain ⟨p, h1, _, h3⟩ := h.2 i hi
    obtain ⟨_, q, h4, h5⟩ := mem_deadPositions 0 i _ hd
    rw [Nat.sub_zero, h1] at h4
    cases h4
    rw [h3] at h5
    exact Bool.noConfusion h5
  · intro i hi
    rcases List.mem_append.mp hi with hi | hi
    · obtain ⟨p, h1, h2, h3⟩ := h.2 i hi
      refine ⟨p, ?_, h2, h3⟩
      rw [List.getElem?_map, h1]
      simp [sweepOne, h2, h3]
    · obtain ⟨_, q, h4, h5⟩ := mem_deadPositions 0 i _ hi
      rw [Nat.sub_zero] at h4
      refine ⟨sweepOne env e.mFormat.particleGravity q, ?_, ?_, ?_⟩
      · rw [List.getElem?_map, h4]
        rfl
      · simp [sweepOne, h5]
      · simp [sweepOne, h5]

/-- An iteration of `update` keeps `PurgInv`. -/
theorem purgInv_tick {α : Type} (env : Env α) (e : Emitter α) (a b : ℚ) (h : PurgInv e) :
    PurgInv (tick env e a b) := by
  have h1 : PurgInv { e with mDiffTime := f64 (a - e.mCurrTime) } := h
  have h2 := purgInv_sweepPass env _
    (purgInv_addParticlesLoop env
      (spawnAmount (applyPerlin env { e with mDiffTime := f64 (a - e.mCurrTime) })).toNat _
      (purgInv_applyPerlin env _ h1))
  exact h2

/-- Every run of `update` keeps `PurgInv`. -/
theorem purgInv_update {α : Type} (env : Env α) (ts : List (ℚ × ℚ)) (e : Emitter α)
    (h : PurgInv e) : PurgInv (update env ts e) := by
  induction ts generalizing e with
  | nil => exact h
  | cons t ts ih =>
    unfold update
    split_ifs
    · exact h
    · exact ih _ (purgInv_tick env e t.1 t.2 h)

/-- C4: in every state that a run of `update` reaches from the state `setup` produces on a
freshly constructed emitter, `mPurgParticles` contains no reference twice and every reference
is the position of a particle stored in `mParticles` whose `mIsInPurgatory` flag is set (and
whose `mIsDead` flag is clear).  This holds for every particle type, also without the
assumptions on `Particle::setup` and `Particle::update`. -/
theorem purgatory_refs_valid_and_distinct {α : Type} (env : Env α) (junk : Emitter α)
    (f : EmitterFormat) (w : SetupClock) (ts : List (ℚ × ℚ)) :
    update env ts (setup (Emitter.construct junk) f w)
      = ts.foldl (fun s t => tick env s t.1 t.2) (setup (Emitter.construct junk) f w) ∧
    (update env ts (setup (Emitter.construct junk) f w)).mPurgParticles.Nodup ∧
    ∀ i ∈ (update env ts (setup (Emitter.construct junk) f w)).mPurgParticles,
      ∃ p, (update env ts (setup (Emitter.construct junk) f w)).mParticles[i]? = some p ∧
        p.mIsInPurgatory = true ∧ p.mIsDead = false := by
  have h0 : PurgInv (setup (Emitter.construct junk) f w) :=
    ⟨List.nodup_nil, fun i hi => absurd hi (List.not_mem_nil i)⟩
  have h := purgInv_update env ts _ h0
  exact ⟨update_eq_foldl env ts _ rfl, h.1, h.2⟩

/-- C4, witness: the emitter that ran two iterations has the purgatory list `[0]`, and position
0 of `mParticles` holds a particle in purgatory. -/
theorem purgatory_refs_valid_and_distinct_witness :
    0 ∈ usedEmitter.mPurgParticles ∧
    ∃ p, usedEmitter.mParticles[0]? = some p ∧ p.mIsInPurgatory = true ∧ p.mIsDead = false :=
  ⟨by decide!,
    (purgatory_refs_valid_and_distinct lifeEnv junkEmitter shortLifeFormat clockZero
      [(1 / 60, 1 / 60), (2 / 60, 2 / 60)]).2.2 0 (by decide!)⟩

/-! ## The classes of a particle at the end of an iteration -/

/-- The particle type `lifeOps` never sets `mIsInPurgatory` in `update`. -/
theorem lifeOps_update_purgatory (p : Particle ℚ) (g : Vec3f) :
    p.mIsInPurgatory = false → (lifeEnv.ops.update p g).mIsInPurgatory = false := by
  intro h
  show (if p.body ≤ 1 / 60 then ({ p with mIsDead := true, body := 0 } : Particle ℚ)
    else { p with body := p.body - 1 / 60 }).mIsInPurgatory = false
  split_ifs <;> exact h

/-- C3 (amended): at the end of every iteration of `update`, from any state and for every
particle type whose `update` never sets `mIsInPurgatory`, every particle of `mParticles` is in
exactly one of three classes: live (both flags clear), purgatory (`mIsInPurgatory` set,
`mIsDead` clear), or expired (`mIsDead` set, `mIsInPurgatory` clear).  An expired particle is
one that was live before the loop over the particles and whose `update` set `mIsDead` in this
iteration; it is neither live nor in purgatory. -/
theorem tick_particle_classes {α : Type} (env : Env α) (e : Emitter α) (a b : ℚ)
    (hupd : ∀ p g, p.mIsInPurgatory = false → (env.ops.update p g).mIsInPurgatory = false)
    (p : Particle α) (hp : p ∈ (tick env e a b).mParticles) :
    (isLive p = true ∧ p.mIsDead = false ∧ p.mIsInPurgatory = false) ∨
    (isLive p = false ∧ p.mIsDead = false ∧ p.mIsInPurgatory = true) ∨
    (isLive p = false ∧ p.mIsDead = true ∧ p.mIsInPurgatory = false ∧
      ∃ q ∈ (spawnPhase env e a).mParticles,
        isLive q = true ∧ p = env.ops.update q (spawnPhase env e a).mFormat.particleGravity) := by
  have hp' : p ∈ (sweepLoop env (spawnPhase env e a).mFormat.particleGravity 0
      (spawnPhase env e a).mParticles (spawnPhase env e a).mPurgParticles).1 := hp
  rw [sweepLoop_fst, List.mem_map] at hp'
  obtain ⟨q, hq, rfl⟩ := hp'
  unfold sweepOne
  by_cases hd : q.mIsDead = true
  · right; left
    simp [hd, isLive]
  · have hd' : q.mIsDead = false := by simpa using hd
    by_cases hpg : q.mIsInPurgatory = true
    · right; left
      simp [hd', hpg, isLive]
    · have hpg' : q.mIsInPurgatory = false := by simpa using hpg
      have hu := hupd q (spawnPhase env e a).mFormat.particleGravity hpg'
      simp only [hd', hpg', Bool.false_eq_true, if_false, Bool.not_false, if_true]
      cases hdu : (env.ops.update q (spawnPhase env e a).mFormat.particleGravity).mIsDead with
      | false => left; simp [isLive, hdu, hu]
      | true =>
        right; right
        refine ⟨by simp [isLive, hdu], rfl, hu, q, hq, by simp [isLive, hd', hpg'], rfl⟩

/-- C3, witness: the classes of the particle held after the first iteration of an emitter set
up with `shortLifeFormat`. -/
theorem tick_particle_classes_witness :
    (∀ p g, p.mIsInPurgatory = false → (lifeEnv.ops.update p g).mIsInPurgatory = false) ∧
    (⟨true, false, 0⟩ : Particle ℚ) ∈ expiredEmitter.mParticles ∧
    ((isLive (⟨true, false, 0⟩ : Particle ℚ) = true ∧
        (⟨true, false, 0⟩ : Particle ℚ).mIsDead = false ∧
        (⟨true, false, 0⟩ : Particle ℚ).mIsInPurgatory = false) ∨
      (isLive (⟨true, false, 0⟩ : Particle ℚ) = false ∧
        (⟨true, false, 0⟩ : Particle ℚ).mIsDead = false ∧
        (⟨true, false, 0⟩ : Particle ℚ).mIsInPurgatory = true) ∨
      (isLive (⟨true, false, 0⟩ : Particle ℚ) = false ∧
        (⟨true, false, 0⟩ : Particle ℚ).mIsDead = true ∧
        (⟨true, false, 0⟩ : Particle ℚ).mIsInPurgatory = false ∧
        ∃ q ∈ (spawnPhase lifeEnv
            (setup (Emitter.construct junkEmitter) shortLifeFormat clockZero) (1 / 60)).mParticles,
          isLive q = true ∧
          (⟨true, false, 0⟩ : Particle ℚ) = lifeEnv.ops.update q
            (spawnPhase lifeEnv (setup (Emitter.construct junkEmitter) shortLifeFormat clockZero)
              (1 / 60)).mFormat.particleGravity)) :=
  ⟨lifeOps_update_purgatory, by decide!,
    tick_particle_classes lifeEnv (setup (Emitter.construct junkEmitter) shortLifeFormat clockZero)
      (1 / 60) (1 / 60) lifeOps_update_purgatory ⟨true, false, 0⟩ (by decide!)⟩

/-- C3, counterexample: after the first iteration of an emitter set up with `shortLifeFormat`
(rate 100, lifespan a hundredth of a second) the only particle has `mIsDead` set and
`mIsInPurgatory` clear, so it is neither live nor in purgatory. -/
theorem expired_particle_in_no_class :
    expiredEmitter.mParticles = [⟨true, false, 0⟩] ∧
    (∀ p ∈ expiredEmitter.mParticles, isLive p = false ∧ p.mIsInPurgatory = false) := by
  decide!

/-! ## addParticles -/

theorem addParticlesLoop_add {α : Type} (env : Env α) (a b : Nat) (e : Emitter α) :
    addParticlesLoop env (a + b) e = addParticlesLoop env b (addParticlesLoop env a e) := by
  induction a generalizing e with
  | zero => simp [addParticlesLoop]
  | succ a ih =>
    have : a + 1 + b = (a + b) + 1 := by omega
    rw [this]
    simp only [addParticlesLoop]
    exact ih _

/-- The effect of `k` creations: the count and the number of random calls grow by `k`, `k`
particles are appended, the capacity and the purgatory list stay. -/
theorem iterate_createParticle {α : Type} (env : Env α) (k : Nat) (e : Emitter α) :
    ((createParticle env)^[k] e).mCurrNumParticles = e.mCurrNumParticles + k ∧
    ((createParticle env)^[k] e).mMaxParticles = e.mMaxParticles ∧
    ((createParticle env)^[k] e).mPurgParticles = e.mPurgParticles ∧
    ((createParticle env)^[k] e).mRandCalls = e.mRandCalls + k ∧
    ∃ news : List (Particle α), news.length = k ∧
      ((createParticle env)^[k] e).mParticles = e.mParticles ++ news := by
  induction k generalizing e with
  | zero => exact ⟨by simp, rfl, rfl, rfl, [], rfl, by simp⟩
  | succ k ih =>
    obtain ⟨h1, h2, h3, h4, news, h5, h6⟩ := ih (createParticle env e)
    rw [Function.iterate_succ_apply]
    refine ⟨?_, ?_, ?_, ?_, setupParticle env e env.ops.construct :: news, ?_, ?_⟩
    · rw [h1]; simp only [createParticle]; push_cast; ring
    · rw [h2]; rfl
    · rw [h3]; rfl
    · rw [h4]; simp only [createParticle]; ring
    · simp [h5]
    · rw [h6]; simp [createParticle]

/-- While the free capacity lasts, the loop of `addParticles` only creates. -/
theorem addParticlesLoop_create {α : Type} (env : Env α) (k : Nat) (e : Emitter α)
    (h : (k : Int) ≤ e.mMaxParticles - e.mCurrNumParticles) :
    addParticlesLoop env k e = (createParticle env)^[k] e := by
  induction k generalizing e with
  | zero => rfl
  | succ k ih =>
    have hlt : e.mCurrNumParticles < e.mMaxParticles := by push_cast at h; omega
    rw [Function.iterate_succ_apply]
    simp only [addParticlesLoop, addParticlesBody, if_pos hlt]
    apply ih
    simp only [createParticle]
    push_cast at h
    omega

/-- With an empty purgatory list there is nothing to re-use. -/
theorem recycleBack_of_nil {α : Type} (env : Env α) (e : Emitter α)
    (h : e.mPurgParticles = []) : recycleBack env e = e := by
  simp [recycleBack, h]

/-- With an empty purgatory list any number of re-uses changes nothing. -/
theorem iterate_recycleBack_of_nil {α : Type} (env : Env α) (m : Nat) (e : Emitter α)
    (h : e.mPurgParticles = []) : (recycleBack env)^[m] e = e := by
  induction m with
  | zero => rfl
  | succ m ih => rw [Function.iterate_succ_apply, recycleBack_of_nil env e h, ih]

/-- At capacity, the loop of `addParticles` only re-uses purgatory particles. -/
theorem addParticlesLoop_full {α : Type} (env : Env α) (m : Nat) (e : Emitter α)
    (h : ¬ e.mCurrNumParticles < e.mMaxParticles) :
    addParticlesLoop env m e = (recycleBack env)^[m] e := by
  induction m generalizing e with
  | zero => rfl
  | succ m ih =>
    rw [Function.iterate_succ_apply]
    have hb : addParticlesBody env e = recycleBack env e := by
      simp only [addParticlesBody, if_neg h, recycleBack]
    simp only [addParticlesLoop, hb]
    apply ih
    unfold recycleBack
    cases e.mPurgParticles.getLast? <;> exact h

/-- The effect of `m` re-uses on a purgatory list of size `p`: only the first `min p m` do
something; they remove the last `min p m` references and leave alone the particles that these
references do not point to. -/
theorem iterate_recycleBack {α : Type} (env : Env α) (m : Nat) (e : Emitter α) :
    (recycleBack env)^[m] e = (recycleBack env)^[min e.mPurgParticles.length m] e ∧
    ((recycleBack env)^[m] e).mCurrNumParticles = e.mCurrNumParticles ∧
    ((recycleBack env)^[m] e).mParticles.length = e.mParticles.length ∧
    ((recycleBack env)^[m] e).mRandCalls = e.mRandCalls + min e.mPurgParticles.length m ∧
    ((recycleBack env)^[m] e).mPurgParticles
      = e.mPurgParticles.take (e.mPurgParticles.length - min e.mPurgParticles.length m) ∧
    ∀ i, i ∉ e.mPurgParticles.drop (e.mPurgParticles.length - min e.mPurgParticles.length m) →
      ((recycleBack env)^[m] e).mParticles[i]? = e.mParticles[i]? := by
  induction m generalizing e with
  | zero => simp
  | succ m ih =>
    cases hl : e.mPurgParticles.getLast? with
    | none =>
      have hnil : e.mPurgParticles = [] := List.getLast?_eq_none_iff.mp hl
      rw [iterate_recycleBack_of_nil env _ e hnil]
      simp [hnil]
    | some k =>
      have hsplit : e.mPurgParticles.dropLast ++ [k] = e.mPurgParticles :=
        List.dropLast_append_getLast? k (by rw [hl]; rfl)
      have hrb : recycleBack env e = recycleParticle env e k := by
        simp only [recycleBack, hl]
      have hpos : 0 < e.mPurgParticles.length := by
        rw [← hsplit]; simp
      have hlen : (recycleParticle env e k).mPurgParticles.length
          = e.mPurgParticles.length - 1 := by
        simp [recycleParticle]
      have hmin : min e.mPurgParticles.length (m + 1)
          = min (e.mPurgParticles.length - 1) m + 1 := by omega
      obtain ⟨h1, h2, h3, h4, h5, h6⟩ := ih (recycleParticle env e k)
      rw [Function.iterate_succ_apply, hrb, hmin, Function.iterate_succ_apply, hrb]
      rw [hlen] at h1 h4 h5 h6
      refine ⟨h1, h2, ?_, ?_, ?_, ?_⟩
      · rw [h3]; simp [recycleParticle, writeAt_length]
      · rw [h4]; simp only [recycleParticle]; ring
      · rw [h5]
        simp only [recycleParticle, List.dropLast_eq_take, List.take_take]
        congr 1
        omega
      · intro i hi
        have hdrop : e.mPurgParticles.drop
            (e.mPurgParticles.length - (min (e.mPurgParticles.length - 1) m + 1))
            = (e.mPurgParticles.dropLast.drop
              (e.mPurgParticles.length - 1 - min (e.mPurgParticles.length - 1) m)) ++ [k] := by
          have hh : e.mPurgParticles.length - (min (e.mPurgParticles.length - 1) m + 1)
              = e.mPurgParticles.length - 1 - min (e.mPurgParticles.length - 1) m := by omega
          rw [hh]
          have hgen : ∀ d, d ≤ e.mPurgParticles.dropLast.length →
              e.mPurgParticles.drop d = e.mPurgParticles.dropLast.drop d ++ [k] := by
            intro d hd
            conv_lhs => rw [← hsplit]
            rw [List.drop_append_of_le_length hd]
          apply hgen
          rw [List.length_dropLast]
          omega
        rw [hdrop, List.mem_append, not_or] at hi
        have hik : i ≠ k := fun hik => hi.2 (by rw [hik]; exact List.mem_singleton_self k)
        rw [h6 i hi.1]
        show (writeAt _ k e.mParticles)[i]? = _
        exact writeAt_getElem?_ne _ k i _ hik

/-- C5: for `n` requests on an emitter whose count `c` is at most the capacity `M` and whose
purgatory list has size `p`, `addParticles(n)` is `k = min(n, M - c)` creations followed by
`j = min(p, n - k)` re-uses of the back of the purgatory list, and nothing else.  The count
becomes `c + k`; the `k` new particles are appended to `mParticles`; the last `j` purgatory
references are removed; the random source is called `k + j` times, once for each particle set
up; particles that the removed references do not point to are unchanged.  With `c = M` and an
empty purgatory list the emitter is unchanged. -/
theorem addParticles_creates_recycles_drops {α : Type} (env : Env α) (e : Emitter α) (n : Nat)
    (h : e.mCurrNumParticles ≤ e.mMaxParticles) :
    addParticles env n e
      = (recycleBack env)^[recycledCount e n] ((createParticle env)^[createdCount e n] e) ∧
    (addParticles env n e).mCurrNumParticles = e.mCurrNumParticles + createdCount e n ∧
    (∃ news : List (Particle α), news.length = createdCount e n ∧
      ((createParticle env)^[createdCount e n] e).mParticles = e.mParticles ++ news) ∧
    (addParticles env n e).mParticles.length = e.mParticles.length + createdCount e n ∧
    (addParticles env n e).mPurgParticles
      = e.mPurgParticles.take (e.mPurgParticles.length - recycledCount e n) ∧
    (addParticles env n e).mRandCalls = e.mRandCalls + createdCount e n + recycledCount e n ∧
    (∀ i, i < e.mParticles.length →
      i ∉ e.mPurgParticles.drop (e.mPurgParticles.length - recycledCount e n) →
      (addParticles env n e).mParticles[i]? = e.mParticles[i]?) ∧
    (e.mCurrNumParticles = e.mMaxParticles → e.mPurgParticles = [] →
      addParticles env n e = e) := by
  obtain ⟨c1, c2, c3, c4, news, c5, c6⟩ := iterate_createParticle env (createdCount e n) e
  have hk : (createdCount e n : Int) ≤ e.mMaxParticles - e.mCurrNumParticles := by
    unfold createdCount; omega
  have hsplit : n = createdCount e n + (n - createdCount e n) := by
    unfold createdCount; omega
  have hfull : addParticlesLoop env (n - createdCount e n) ((createParticle env)^[createdCount e n] e)
      = (recycleBack env)^[n - createdCount e n] ((createParticle env)^[createdCount e n] e) := by
    by_cases hn : n - createdCount e n = 0
    · rw [hn]; rfl
    · apply addParticlesLoop_full
      rw [c1, c2]
      unfold createdCount at hn ⊢
      omega
  obtain ⟨r1, r2, r3, r4, r5, r6⟩ :=
    iterate_recycleBack env (n - createdCount e n) ((createParticle env)^[createdCount e n] e)
  rw [c3] at r1 r4 r5 r6
  have hmain : addParticles env n e
      = (recycleBack env)^[recycledCount e n] ((createParticle env)^[createdCount e n] e) := by
    show addParticlesLoop env (n : Int).toNat e = _
    rw [Int.toNat_ofNat]
    conv_lhs => rw [hsplit]
    rw [addParticlesLoop_add, addParticlesLoop_create env _ e hk, hfull, r1]
    rfl
  have hrec : recycledCount e n = min e.mPurgParticles.length (n - createdCount e n) := rfl
  rw [← hrec] at r1 r4 r5 r6
  rw [← r1] at hmain
  refine ⟨by rw [hmain, r1], ?_, ⟨news, c5, c6⟩, ?_, ?_, ?_, ?_, ?_⟩
  · rw [hmain, r2, c1]
  · rw [hmain, r3, c6, List.length_append, c5]
  · rw [hmain, r5]
  · rw [hmain, r4, c4]
  · intro i hi hni
    rw [hmain, r6 i hni, c6, List.getElem?_append_left hi]
  · intro hc hp
    have hk0 : createdCount e n = 0 := by unfold createdCount; omega
    have hj0 : recycledCount e n = 0 := by unfold recycledCount; simp [hp]
    rw [hmain, r1, hj0, hk0]
    rfl

/-- C5, witness: five requests on an emitter with count 3, capacity 4 and two purgatory
references: one creation, two re-uses, two requests dropped. -/
theorem addParticles_creates_recycles_drops_witness :
    crowdedEmitter.mCurrNumParticles ≤ crowdedEmitter.mMaxParticles ∧
    createdCount crowdedEmitter 5 = 1 ∧ recycledCount crowdedEmitter 5 = 2 ∧
    addParticles lifeEnv (5 : Nat) crowdedEmitter
      = (recycleBack lifeEnv)^[recycledCount crowdedEmitter 5]
          ((createParticle lifeEnv)^[createdCount crowdedEmitter 5] crowdedEmitter) ∧
    (addParticles lifeEnv (5 : Nat) crowdedEmitter).mCurrNumParticles
      = crowdedEmitter.mCurrNumParticles + createdCount crowdedEmitter 5 :=
  ⟨by decide, by decide, by decide,
    (addParticles_creates_recycles_drops lifeEnv crowdedEmitter 5 (by decide)).1,
    (addParticles_creates_recycles_drops lifeEnv crowdedEmitter 5 (by decide)).2.1⟩

/-! ## The spawn requests of an iteration -/

/-- C10 (amended): in the iteration that follows an iteration ended at clock reading `b`,
started at clock reading `c` (the two readings so that their difference is a finite
`double`), the elapsed time is the `double` difference of `c` and `b`, and the argument of
`addParticles` is the `double` product of `particlesPerSecond` and that elapsed time, converted
to `int`, that is truncated; for a computed product that is non-negative and below `2^31` this
is the floor of the computed product. -/
theorem spawn_requests_truncated {α : Type} (env : Env α) (e : Emitter α) (a b c d : ℚ)
    (hfin : |f64 (c - b)| ≤ DBL_MAX) :
    |(applyPerlin env
        { tick env e a b with mDiffTime := f64 (c - (tick env e a b).mCurrTime) }).mDiffTime|
      ≤ DBL_MAX ∧
    (tick env e a b).mCurrTime = b ∧
    spawnAmount (applyPerlin env
        { tick env e a b with mDiffTime := f64 (c - (tick env e a b).mCurrTime) })
      = truncToInt (f64 ((e.mFormat.particlesPerSecond : ℚ) * f64 (c - b))) ∧
    tick env (tick env e a b) c d
      = { sweepPass env
            (addParticles env
              (truncToInt (f64 ((e.mFormat.particlesPerSecond : ℚ) * f64 (c - b))))
              (applyPerlin env { tick env e a b with mDiffTime := f64 (c - b) })) with
          mCurrTime := d } ∧
    (0 ≤ f64 ((e.mFormat.particlesPerSecond : ℚ) * f64 (c - b)) →
      f64 ((e.mFormat.particlesPerSecond : ℚ) * f64 (c - b)) < 2147483648 →
      truncToInt (f64 ((e.mFormat.particlesPerSecond : ℚ) * f64 (c - b)))
        = ⌊f64 ((e.mFormat.particlesPerSecond : ℚ) * f64 (c - b))⌋) := by
  have hf := applyPerlin_frame env { tick env e a b with mDiffTime := f64 (c - b) }
  have ht := tick_frame env e a b
  have hs : spawnAmount (applyPerlin env { tick env e a b with mDiffTime := f64 (c - b) })
      = truncToInt (f64 ((e.mFormat.particlesPerSecond : ℚ) * f64 (c - b))) := by
    unfold spawnAmount
    rw [hf.2.2.2.1, hf.2.2.2.2.1]
    show truncToInt (f64 (((tick env e a b).mFormat.particlesPerSecond : ℚ) * f64 (c - b))) = _
    rw [ht.2.1]
  refine ⟨?_, rfl, hs, ?_, fun h hr => truncToInt_of_nonneg _ h hr⟩
  · show |(applyPerlin env { tick env e a b with mDiffTime := f64 (c - b) }).mDiffTime|
      ≤ DBL_MAX
    rw [hf.2.2.2.2.1]
    exact hfin
  show ({ sweepPass env (addParticles env
      (spawnAmount (applyPerlin env { tick env e a b with mDiffTime := f64 (c - b) }))
      (applyPerlin env { tick env e a b with mDiffTime := f64 (c - b) })) with mCurrTime := d }
        : Emitter α) = _
  rw [hs]

/-- C10, witness: after an iteration that ended at time 1, an iteration that starts at
time 1.016 with the default rate of 100 requests the floor of the computed product, which is
1. -/
theorem spawn_requests_truncated_witness :
    |f64 ((1016 / 1000 : ℚ) - 1)| ≤ DBL_MAX ∧
    0 ≤ f64 (((setup (Emitter.construct junkEmitter) EmitterFormat.default
        clockZero).mFormat.particlesPerSecond : ℚ) * f64 (1016 / 1000 - 1)) ∧
    f64 (((setup (Emitter.construct junkEmitter) EmitterFormat.default
        clockZero).mFormat.particlesPerSecond : ℚ) * f64 (1016 / 1000 - 1)) < 2147483648 ∧
    truncToInt (f64 (((setup (Emitter.construct junkEmitter) EmitterFormat.default
        clockZero).mFormat.particlesPerSecond : ℚ) * f64 (1016 / 1000 - 1)))
      = ⌊f64 (((setup (Emitter.construct junkEmitter) EmitterFormat.default
        clockZero).mFormat.particlesPerSecond : ℚ) * f64 (1016 / 1000 - 1))⌋ :=
  ⟨by decide!, by decide!, by decide!,
    (spawn_requests_truncated lifeEnv
      (setup (Emitter.construct junkEmitter) EmitterFormat.default clockZero)
      1 1 (1016 / 1000) (1016 / 1000) (by decide!)).2.2.2.2 (by decide!) (by decide!)⟩

/-- C10, counterexample: with a rate of 3, an iteration that starts at the `double` nearest to
one third, after an iteration that ended at time 0, requests 1 particle: the exact product
`3 * elapsed` is below 1 and has floor 0, but the `double` product is 1.  And with a rate of
`2^30` and 2 s elapsed the product `2^31` is non-negative and the request is `INT_MIN`. -/
theorem spawn_request_not_floor_of_product :
    0 ≤ (3 : ℚ) * (f64 (1 / 3) - 0) ∧
    ⌊(3 : ℚ) * (f64 (1 / 3) - 0)⌋ = 0 ∧
    spawnAmount (applyPerlin lifeEnv
        { tick lifeEnv (setup (Emitter.construct junkEmitter) thirdFormat clockZero) 0 0 with
          mDiffTime := f64 (f64 (1 / 3)
            - (tick lifeEnv (setup (Emitter.construct junkEmitter) thirdFormat clockZero)
                0 0).mCurrTime) }) = 1 ∧
    ⌊(1073741824 : ℚ) * (2 - 0)⌋ = 2147483648 ∧
    spawnAmount (applyPerlin lifeEnv
        { tick lifeEnv (setup (Emitter.construct junkEmitter) bigRateFormat clockZero) 0 0 with
          mDiffTime := f64 (2
            - (tick lifeEnv (setup (Emitter.construct junkEmitter) bigRateFormat clockZero)
                0 0).mCurrTime) }) = -2147483648 := by
  decide!

/-! ## The scenario: rate 100, lifespan 4 s, iterations 16 ms apart -/

theorem update_append {α : Type} (env : Env α) (ts us : List (ℚ × ℚ)) (e : Emitter α) :
    update env (ts ++ us) e = update env us (update env ts e) := by
  induction ts generalizing e with
  | nil => rfl
  | cons t ts ih =>
    by_cases h : e.mIsThreadDead = true
    · cases us with
      | nil => simp [update, h]
      | cons u us => simp [update, h]
    · simp only [List.cons_append, update, h]
      exact ih _

/-- One iteration of the loop of `addParticles` increments the count below capacity and keeps it
at capacity. -/
theorem addParticlesBody_count {α : Type} (env : Env α) (e : Emitter α) :
    (addParticlesBody env e).mCurrNumParticles
      = if e.mCurrNumParticles < e.mMaxParticles then e.mCurrNumParticles + 1
        else e.mCurrNumParticles := by
  unfold addParticlesBody
  split_ifs
  · rfl
  · cases e.mPurgParticles.getLast? <;> rfl

/-- An iteration of `update` that requests one particle increments the count below capacity and
keeps it at capacity. -/
theorem tick_count_of_one_request {α : Type} (env : Env α) (e : Emitter α) (a b : ℚ)
    (h : truncToInt (f64 ((e.mFormat.particlesPerSecond : ℚ) * f64 (a - e.mCurrTime))) = 1) :
    (tick env e a b).mCurrNumParticles
      = if e.mCurrNumParticles < e.mMaxParticles then e.mCurrNumParticles + 1
        else e.mCurrNumParticles := by
  have hf := applyPerlin_frame env { e with mDiffTime := f64 (a - e.mCurrTime) }
  have hs : spawnAmount (applyPerlin env { e with mDiffTime := f64 (a - e.mCurrTime) }) = 1 := by
    unfold spawnAmount
    rw [hf.2.2.2.1, hf.2.2.2.2.1]
    exact h
  show (addParticles env (spawnAmount (applyPerlin env { e with mDiffTime := f64 (a - e.mCurrTime) }))
    (applyPerlin env { e with mDiffTime := f64 (a - e.mCurrTime) })).mCurrNumParticles = _
  rw [hs]
  show (addParticlesBody env (applyPerlin env { e with mDiffTime := f64 (a - e.mCurrTime) })).mCurrNumParticles
    = _
  rw [addParticlesBody_count, hf.1, hf.2.1]

/-- The state after `n` iterations of the scenario: the reference time, the count, the capacity,
the configuration and the thread flag. -/
theorem scenario_state {α : Type} (env : Env α) (junk : Emitter α) (w : SetupClock) (n : Nat) :
    (update env (scenarioClock w.elapsedSeconds n)
      (setup (Emitter.construct junk) EmitterFormat.default w)).mCurrTime
        = w.elapsedSeconds + 16 / 1000 * (n : ℚ) ∧
    (update env (scenarioClock w.elapsedSeconds n)
      (setup (Emitter.construct junk) EmitterFormat.default w)).mCurrNumParticles
        = min (n : Int) 2400 ∧
    (update env (scenarioClock w.elapsedSeconds n)
      (setup (Emitter.construct junk) EmitterFormat.default w)).mMaxParticles = 2400 ∧
    (update env (scenarioClock w.elapsedSeconds n)
      (setup (Emitter.construct junk) EmitterFormat.default w)).mFormat
        = EmitterFormat.default ∧
    (update env (scenarioClock w.elapsedSeconds n)
      (setup (Emitter.construct junk) EmitterFormat.default w)).mIsThreadDead = false := by
  induction n with
  | zero =>
    refine ⟨?_, ?_, ?_, rfl, rfl⟩
    · show w.elapsedSeconds = _
      simp
    · rfl
    · show truncToInt (f32 (f32 (f32 ((100 : Int) : ℚ) * 4) + 2000)) = 2400
      decide!
  | succ n ih =>
    obtain ⟨h1, h2, h3, h4, h5⟩ := ih
    have hclock : scenarioClock w.elapsedSeconds (n + 1)
        = scenarioClock w.elapsedSeconds n
          ++ [(w.elapsedSeconds + 16 / 1000 * ((n : ℚ) + 1),
               w.elapsedSeconds + 16 / 1000 * ((n : ℚ) + 1))] := by
      simp [scenarioClock, List.range_succ]
    rw [hclock, update_append]
    generalize update env (scenarioClock w.elapsedSeconds n)
      (setup (Emitter.construct junk) EmitterFormat.default w) = s at h1 h2 h3 h4 h5
    have hstep : update env [(w.elapsedSeconds + 16 / 1000 * ((n : ℚ) + 1),
        w.elapsedSeconds + 16 / 1000 * ((n : ℚ) + 1))] s
        = tick env s (w.elapsedSeconds + 16 / 1000 * ((n : ℚ) + 1))
            (w.elapsedSeconds + 16 / 1000 * ((n : ℚ) + 1)) := by
      simp [update, h5]
    rw [hstep]
    have ht := tick_frame env s (w.elapsedSeconds + 16 / 1000 * ((n : ℚ) + 1))
      (w.elapsedSeconds + 16 / 1000 * ((n : ℚ) + 1))
    have hone : truncToInt (f64 ((s.mFormat.particlesPerSecond : ℚ)
        * f64 (w.elapsedSeconds + 16 / 1000 * ((n : ℚ) + 1) - s.mCurrTime))) = 1 := by
      rw [h4, h1]
      have : w.elapsedSeconds + 16 / 1000 * ((n : ℚ) + 1)
          - (w.elapsedSeconds + 16 / 1000 * (n : ℚ)) = 16 / 1000 := by
        ring
      rw [this]
      decide!
    refine ⟨?_, ?_, ?_, ?_, ?_⟩
    · rw [ht.2.2.2]; push_cast; ring
    · rw [tick_count_of_one_request env s _ _ hone, h2, h3]
      push_cast
      split_ifs <;> omega
    · rw [ht.1, h3]
    · rw [ht.2.1, h4]
    · rw [ht.2.2.1, h5]

/-- C9 (amended): with rate 100, lifespan 4 s and iterations 16 ms apart from a fresh `setup`,
each iteration requests `trunc(1.6) = 1` particle and the count never decreases, so after `n`
iterations `getNumLiveParticles` is `min(n, 2400)`: it grows by one an iteration up to the
capacity 2400, which it never exceeds, and there is no steady state near 400. -/
theorem scenario_count_grows_to_capacity {α : Type} (env : Env α) (junk : Emitter α)
    (w : SetupClock) (n : Nat) :
    getNumLiveParticles (update env (scenarioClock w.elapsedSeconds n)
      (setup (Emitter.construct junk) EmitterFormat.default w)) = min (n : Int) 2400 ∧
    getNumLiveParticles (update env (scenarioClock w.elapsedSeconds n)
      (setup (Emitter.construct junk) EmitterFormat.default w)) ≤ 2400 ∧
    (update env (scenarioClock w.elapsedSeconds n)
      (setup (Emitter.construct junk) EmitterFormat.default w)).mMaxParticles = 2400 := by
  have h := scenario_state env junk w n
  refine ⟨h.2.1, ?_, h.2.2.1⟩
  show (update env (scenarioClock w.elapsedSeconds n)
      (setup (Emitter.construct junk) EmitterFormat.default w)).mCurrNumParticles ≤ 2400
  rw [h.2.1]
  omega

/-- C9, counterexample: after the 625 iterations of 10 simulated seconds the count is 625,
more than half as much again as 400, and it was 624 one iteration before. -/
theorem scenario_count_not_steady_400 :
    getNumLiveParticles (update lifeEnv (scenarioClock clockZero.elapsedSeconds 625)
      (setup (Emitter.construct junkEmitter) EmitterFormat.default clockZero)) = 625 ∧
    getNumLiveParticles (update lifeEnv (scenarioClock clockZero.elapsedSeconds 624)
      (setup (Emitter.construct junkEmitter) EmitterFormat.default clockZero)) = 624 ∧
    ¬ (getNumLiveParticles (update lifeEnv (scenarioClock clockZero.elapsedSeconds 625)
        (setup (Emitter.construct junkEmitter) EmitterFormat.default clockZero))
      ≤ 400 + 200) := by
  have h625 := (scenario_state lifeEnv junkEmitter clockZero 625).2.1
  have h624 := (scenario_state lifeEnv junkEmitter clockZero 624).2.1
  have e625 : getNumLiveParticles (update lifeEnv (scenarioClock clockZero.elapsedSeconds 625)
      (setup (Emitter.construct junkEmitter) EmitterFormat.default clockZero)) = 625 := by
    show (update lifeEnv (scenarioClock clockZero.elapsedSeconds 625)
      (setup (Emitter.construct junkEmitter) EmitterFormat.default clockZero)).mCurrNumParticles
        = 625
    rw [h625]; rfl
  refine ⟨e625, ?_, ?_⟩
  · show (update lifeEnv (scenarioClock clockZero.elapsedSeconds 624)
      (setup (Emitter.construct junkEmitter) EmitterFormat.default clockZero)).mCurrNumParticles
        = 624
    rw [h624]; rfl
  · rw [e625]; decide

/-! ## applyPerlin -/

/-- C11: in synchronized mode one call of `applyPerlin` applies
`applyPerlin(turbulence, &v)` with one and the same vector `v` to every live particle, where
`v` is the noise sample at `(0, 0, mCounter) * turbulence` for the counter held before the
call, times the turbulence, times `0.1`; it leaves every dead or purgatory particle as it is,
and it increments `mCounter` once (as an `unsigned int`: by exactly 1 below `2^32 - 1`),
whatever the particles are.  In mode none the emitter, and so every particle and `mCounter`,
is unchanged. -/
theorem applyPerlin_synchronized_and_none {α : Type} (env : Env α) (e : Emitter α) :
    (e.mFormat.particlePerlinType = PERLIN_TYPE_SYNCHRONIZED →
      (applyPerlin env e).mParticles.length = e.mParticles.length ∧
      (∀ (i : Nat) (p : Particle α), e.mParticles[i]? = some p →
        (isLive p = true →
          (applyPerlin env e).mParticles[i]?
            = some (env.ops.applyPerlinVec p e.mFormat.particleTurbulance
                (((env.dfBm e.mPerlin
                  ((Vec3f.mk 0 0 (e.mCounter : ℚ)).scale e.mFormat.particleTurbulance)).scale
                    e.mFormat.particleTurbulance).scale (1 / 10)))) ∧
        (isLive p = false → (applyPerlin env e).mParticles[i]? = some p)) ∧
      (applyPerlin env e).mCounter = (e.mCounter + 1) % 2 ^ 32 ∧
      (e.mCounter + 1 < 2 ^ 32 → (applyPerlin env e).mCounter = e.mCounter + 1)) ∧
    (e.mFormat.particlePerlinType = PERLIN_TYPE_NONE → applyPerlin env e = e) := by
  constructor
  · intro hs
    have h0 : ¬ e.mFormat.particlePerlinType = PERLIN_TYPE_NONE := by
      rw [hs]; decide
    have h1 : ¬ e.mFormat.particlePerlinType = PERLIN_TYPE_INDIVIDUAL := by
      rw [hs]; decide
    have hp : (applyPerlin env e).mParticles = e.mParticles.map fun p =>
        if isLive p then
          env.ops.applyPerlinVec p e.mFormat.particleTurbulance (noiseVector env e)
        else p := by
      simp only [applyPerlin, if_neg h0, if_neg h1, if_pos hs]
    have hc : (applyPerlin env e).mCounter = (e.mCounter + 1) % 2 ^ 32 := by
      simp only [applyPerlin, if_neg h0, if_neg h1, if_pos hs]
    refine ⟨applyPerlin_length env e, ?_, hc, ?_⟩
    · intro i p hi
      rw [hp, List.getElem?_map, hi]
      constructor
      · intro hl
        simp only [Option.map_some', hl, if_true]
        rfl
      · intro hl
        simp [hl]
    · intro hlt
      rw [hc, Nat.mod_eq_of_lt hlt]
  · intro hn
    simp only [applyPerlin, if_pos hn]

/-- C11, witness: the synchronized emitter with counter 5 and the same emitter in mode none. -/
theorem applyPerlin_synchronized_and_none_witness :
    syncEmitter.mFormat.particlePerlinType = PERLIN_TYPE_SYNCHRONIZED ∧
    calmEmitter.mFormat.particlePerlinType = PERLIN_TYPE_NONE ∧
    syncEmitter.mCounter + 1 < 2 ^ 32 ∧
    (applyPerlin lifeEnv syncEmitter).mCounter = syncEmitter.mCounter + 1 ∧
    applyPerlin lifeEnv calmEmitter = calmEmitter :=
  ⟨by decide, by decide, by decide,
    ((applyPerlin_synchronized_and_none lifeEnv syncEmitter).1 (by decide)).2.2.2 (by decide),
    (applyPerlin_synchronized_and_none lifeEnv calmEmitter).2 (by decide)⟩

/-! ## setupParticle -/

/-- C13 (amended): for a configured lifespan `L > 0` whose `float` product with `1.05f` is a
finite `float`, and a random source that returns a value between its two bounds,
`setupParticle` gives every particle, newly created or recycled, a lifespan in the closed
interval from the `float` product `L * 0.95f` to the `float` product `L * 1.05f`, where
`0.95f` and `1.05f` are the `float` constants (the lower end can lie below `0.95 * L`), and
passes position, speed, size, colour and decay unchanged from the configuration. -/
theorem setupParticle_lifespan_in_range {α : Type} (env : Env α) (e : Emitter α)
    (hL : 0 < e.mFormat.particleLifespanSeconds)
    (hfin : f32 (e.mFormat.particleLifespanSeconds * f32 (105 / 100)) ≤ FLT_MAX)
    (hrand : ∀ n a b, a ≤ b → a ≤ env.randFloat n a b ∧ env.randFloat n a b ≤ b) :
    ∃ life : ℚ,
      f32 (e.mFormat.particleLifespanSeconds * f32 (95 / 100)) ≤ life ∧
      life ≤ f32 (e.mFormat.particleLifespanSeconds * f32 (105 / 100)) ∧
      life ≤ FLT_MAX ∧
      (∀ p, setupParticle env e p
        = env.ops.setup p e.mFormat.emitterPosition e.mFormat.particleSpeed
            e.mFormat.particleSize e.mFormat.particleColorA life e.mFormat.particleDecay) ∧
      (createParticle env e).mParticles
        = e.mParticles ++ [env.ops.setup env.ops.construct e.mFormat.emitterPosition
            e.mFormat.particleSpeed e.mFormat.particleSize e.mFormat.particleColorA life
            e.mFormat.particleDecay] ∧
      (∀ i, (recycleParticle env e i).mParticles[i]?
        = (e.mParticles[i]?).map fun q =>
            env.ops.setup q e.mFormat.emitterPosition e.mFormat.particleSpeed
              e.mFormat.particleSize e.mFormat.particleColorA life e.mFormat.particleDecay) := by
  have hc1 : (0 : ℚ) < f32 (95 / 100) := by decide!
  have hc2 : f32 (95 / 100) ≤ f32 (105 / 100) := by decide!
  have hab : f32 (e.mFormat.particleLifespanSeconds * f32 (95 / 100))
      ≤ f32 (e.mFormat.particleLifespanSeconds * f32 (105 / 100)) :=
    roundBinary_mono 24 (-126) (by decide) (mul_pos hL hc1)
      (mul_le_mul_of_nonneg_left hc2 hL.le)
  obtain ⟨h1, h2⟩ := hrand e.mRandCalls _ _ hab
  refine ⟨env.randFloat e.mRandCalls (f32 (e.mFormat.particleLifespanSeconds * f32 (95 / 100)))
    (f32 (e.mFormat.particleLifespanSeconds * f32 (105 / 100))), h1, h2, le_trans h2 hfin,
    fun p => rfl, rfl, ?_⟩
  intro i
  exact writeAt_getElem?_eq (setupParticle env e) i e.mParticles

/-- C13, witness: the default lifespan of 4 s and a random source that returns its lower
bound. -/
theorem setupParticle_lifespan_in_range_witness :
    0 < crowdedEmitter.mFormat.particleLifespanSeconds ∧
    f32 (crowdedEmitter.mFormat.particleLifespanSeconds * f32 (105 / 100)) ≤ FLT_MAX ∧
    (∀ (n : Nat) (a b : ℚ), a ≤ b → a ≤ lifeEnv.randFloat n a b ∧ lifeEnv.randFloat n a b ≤ b) ∧
    ∃ life : ℚ,
      f32 (crowdedEmitter.mFormat.particleLifespanSeconds * f32 (95 / 100)) ≤ life ∧
      life ≤ f32 (crowdedEmitter.mFormat.particleLifespanSeconds * f32 (105 / 100)) ∧
      ∀ p, setupParticle lifeEnv crowdedEmitter p
        = lifeEnv.ops.setup p crowdedEmitter.mFormat.emitterPosition
            crowdedEmitter.mFormat.particleSpeed crowdedEmitter.mFormat.particleSize
            crowdedEmitter.mFormat.particleColorA life crowdedEmitter.mFormat.particleDecay :=
  ⟨by decide!, by decide!, fun _ a _ h => ⟨le_refl a, h⟩,
    (setupParticle_lifespan_in_range lifeEnv crowdedEmitter (by decide!) (by decide!)
      (fun _ a _ h => ⟨le_refl a, h⟩)).imp fun _ h => ⟨h.1, h.2.1, h.2.2.2.1⟩⟩

/-- C13, counterexample: with the default lifespan of 4 s and a random source that returns its
lower bound, the lifespan handed to the particle is `4 * 0.95f = 3.79999995...`, which is below
`0.95 * 4`. -/
theorem lifespan_below_exact_bound :
    0 < crowdedEmitter.mFormat.particleLifespanSeconds ∧
    crowdedEmitter.mFormat.particleLifespanSeconds = 4 ∧
    (setupParticle lifeEnv crowdedEmitter lifeEnv.ops.construct).body = 15938355 / 4194304 ∧
    (setupParticle lifeEnv crowdedEmitter lifeEnv.ops.construct).body
      < crowdedEmitter.mFormat.particleLifespanSeconds * (95 / 100) ∧
    ¬ (crowdedEmitter.mFormat.particleLifespanSeconds * (95 / 100)
      ≤ (setupParticle lifeEnv crowdedEmitter lifeEnv.ops.construct).body) := by
  decide!

/-! ## Requests of less than one particle -/

/-- The conversion of a value below one is not positive. -/
theorem truncToInt_nonpos_of_lt_one (q : ℚ) (h : q < 1) : truncToInt q ≤ 0 := by
  have ht : Int.tdiv q.num q.den ≤ 0 := by
    by_cases h0 : 0 ≤ q
    · rw [tdiv_eq_floor_of_nonneg q h0]
      have : ⌊q⌋ < 1 := Int.floor_lt.mpr (by exact_mod_cast h)
      omega
    · have hnum : q.num < 0 := Rat.num_neg.mpr (not_le.mp h0)
      have h1 : q.num = -(-q.num) := by omega
      rw [h1, Int.neg_tdiv]
      have := Int.tdiv_nonneg (a := -q.num) (b := (q.den : Int)) (by omega)
        (by exact_mod_cast Nat.zero_le _)
      omega
  unfold truncToInt
  split_ifs
  · exact ht
  · unfold INT_MIN; omega

/-- An iteration of `update` on an emitter without particles whose request is less than one
particle creates nothing. -/
theorem tick_of_small_request {α : Type} (env : Env α) (e : Emitter α) (a b : ℚ)
    (hp : e.mParticles = [])
    (h : f64 ((e.mFormat.particlesPerSecond : ℚ) * f64 (a - e.mCurrTime)) < 1) :
    (tick env e a b).mParticles = [] ∧
    (tick env e a b).mCurrNumParticles = e.mCurrNumParticles := by
  have hf := applyPerlin_frame env { e with mDiffTime := f64 (a - e.mCurrTime) }
  have hlen := applyPerlin_length env { e with mDiffTime := f64 (a - e.mCurrTime) }
  have hnil : (applyPerlin env { e with mDiffTime := f64 (a - e.mCurrTime) }).mParticles
      = [] := by
    apply List.eq_nil_of_length_eq_zero
    rw [hlen]
    show e.mParticles.length = 0
    rw [hp]; rfl
  have hs : (spawnAmount (applyPerlin env
      { e with mDiffTime := f64 (a - e.mCurrTime) })).toNat = 0 := by
    unfold spawnAmount
    rw [hf.2.2.2.1, hf.2.2.2.2.1]
    have := truncToInt_nonpos_of_lt_one _ h
    show (truncToInt (f64 ((e.mFormat.particlesPerSecond : ℚ)
      * f64 (a - e.mCurrTime)))).toNat = 0
    omega
  have hsp : spawnPhase env e a
      = applyPerlin env { e with mDiffTime := f64 (a - e.mCurrTime) } := by
    show addParticlesLoop env _ _ = _
    rw [hs]
    rfl
  constructor
  · show (sweepLoop env _ 0 (spawnPhase env e a).mParticles _).1 = []
    rw [hsp, hnil]
    rfl
  · show (spawnPhase env e a).mCurrNumParticles = _
    rw [hsp, hf.1]

/-- A run of `update` on an emitter without particles, each request less than one particle,
creates nothing. -/
theorem update_of_small_requests {α : Type} (env : Env α) (ts : List (ℚ × ℚ)) (e : Emitter α)
    (hp : e.mParticles = [])
    (h : slowClock e.mFormat.particlesPerSecond e.mCurrTime ts = true) :
    (update env ts e).mParticles = [] ∧
    (update env ts e).mCurrNumParticles = e.mCurrNumParticles := by
  induction ts generalizing e with
  | nil => exact ⟨hp, rfl⟩
  | cons t ts ih =>
    unfold update
    split_ifs
    · exact ⟨hp, rfl⟩
    · simp only [slowClock, Bool.and_eq_true, decide_eq_true_eq] at h
      have ht := tick_of_small_request env e t.1 t.2 hp h.1
      have hfr := tick_frame env e t.1 t.2
      have h2 : slowClock (tick env e t.1 t.2).mFormat.particlesPerSecond
          (tick env e t.1 t.2).mCurrTime ts = true := by
        rw [hfr.2.1, hfr.2.2.2]
        exact h.2
      obtain ⟨r1, r2⟩ := ih _ ht.1 h2
      exact ⟨r1, r2.trans ht.2⟩

/-- The clock of `n + 1` iterations 16 ms apart is its first iteration followed by the clock of
`n` iterations that starts 16 ms later. -/
theorem scenarioClock_succ (t0 : ℚ) (n : Nat) :
    scenarioClock t0 (n + 1)
      = (t0 + 16 / 1000, t0 + 16 / 1000) :: scenarioClock (t0 + 16 / 1000) n := by
  unfold scenarioClock
  rw [List.range_succ_eq_map]
  simp only [List.bind_eq_flatMap, List.pure_def, List.flatMap_cons, List.singleton_append,
    List.map_cons, List.flatMap_map, List.map_flatMap, List.flatMap_singleton, List.map_map,
    List.cons_append, List.nil_append]
  congr 1
  · simp
  · congr 1
    funext a
    simp only [List.map_nil, Nat.succ_eq_add_one]
    push_cast
    congr 2 <;> ring

/-- At a rate of 50 particles a second every iteration of a run with iterations 16 ms apart
requests less than one particle: the `double` product is below one, whatever the start time. -/
theorem slowClock_scenarioClock (t0 : ℚ) (n : Nat) :
    slowClock 50 t0 (scenarioClock t0 n) = true := by
  induction n generalizing t0 with
  | zero => rfl
  | succ n ih =>
    rw [scenarioClock_succ]
    simp only [slowClock, Bool.and_eq_true, decide_eq_true_eq]
    refine ⟨?_, ih _⟩
    have h : t0 + 16 / 1000 - t0 = (16 / 1000 : ℚ) := by ring
    rw [h]
    decide!

/-- C17 (amended): the fractional part of the product `particlesPerSecond * elapsed` is
discarded on every iteration and not carried over: in every run from a fresh `setup` in which
the product, computed in `double` as the code computes it, is less than one on each iteration,
every iteration is executed, no particle is ever created and `mCurrNumParticles` stays 0,
however many iterations run. -/
theorem no_spawn_when_requests_below_one {α : Type} (env : Env α) (junk : Emitter α)
    (f : EmitterFormat) (w : SetupClock) (ts : List (ℚ × ℚ))
    (h : slowClock f.particlesPerSecond w.elapsedSeconds ts = true) :
    update env ts (setup (Emitter.construct junk) f w)
      = ts.foldl (fun s t => tick env s t.1 t.2) (setup (Emitter.construct junk) f w) ∧
    (update env ts (setup (Emitter.construct junk) f w)).mParticles = [] ∧
    (update env ts (setup (Emitter.construct junk) f w)).mCurrNumParticles = 0 ∧
    getNumLiveParticles (update env ts (setup (Emitter.construct junk) f w)) = 0 := by
  have hr := update_of_small_requests env ts (setup (Emitter.construct junk) f w) rfl h
  exact ⟨update_eq_foldl env ts _ rfl, hr.1, hr.2, hr.2⟩

/-- C17, witness: a rate of 50 particles a second and 1000 iterations 16 ms apart: each
iteration requests `trunc(0.8) = 0` particles. -/
theorem no_spawn_when_requests_below_one_witness :
    slowClock slowFormat.particlesPerSecond clockZero.elapsedSeconds
      (scenarioClock clockZero.elapsedSeconds 1000) = true ∧
    (scenarioClock clockZero.elapsedSeconds 1000).length = 1000 ∧
    getNumLiveParticles (update lifeEnv (scenarioClock clockZero.elapsedSeconds 1000)
      (setup (Emitter.construct junkEmitter) slowFormat clockZero)) = 0 :=
  ⟨slowClock_scenarioClock clockZero.elapsedSeconds 1000, by decide!,
    (no_spawn_when_requests_below_one lifeEnv junkEmitter slowFormat clockZero
      (scenarioClock clockZero.elapsedSeconds 1000)
      (slowClock_scenarioClock clockZero.elapsedSeconds 1000)).2.2.2⟩

/-- C17, counterexample: with a rate of 3 and one iteration that starts at the `double` nearest
to one third after a `setup` at time 0, the exact product `3 * elapsed` is below 1, yet the
`double` product is 1 and the iteration creates a particle. -/
theorem spawn_although_exact_product_below_one :
    (thirdFormat.particlesPerSecond : ℚ) * (f64 (1 / 3) - clockZero.elapsedSeconds) < 1 ∧
    f64 ((thirdFormat.particlesPerSecond : ℚ) * f64 (f64 (1 / 3) - clockZero.elapsedSeconds))
      = 1 ∧
    getNumLiveParticles (update lifeEnv [(f64 (1 / 3), f64 (1 / 3))]
      (setup (Emitter.construct junkEmitter) thirdFormat clockZero)) = 1 ∧
    (update lifeEnv [(f64 (1 / 3), f64 (1 / 3))]
      (setup (Emitter.construct junkEmitter) thirdFormat clockZero)).mParticles.length = 1 := by
  decide!

/-! ## The count never decreases -/

/-- The loop of `addParticles` never decreases the count. -/
theorem addParticlesLoop_count_le {α : Type} (env : Env α) (n : Nat) (e : Emitter α) :
    e.mCurrNumParticles ≤ (addParticlesLoop env n e).mCurrNumParticles := by
  induction n generalizing e with
  | zero => exact le_refl _
  | succ n ih =>
    have h1 := addParticlesBody_count env e
    have h2 := ih (addParticlesBody env e)
    simp only [addParticlesLoop]
    split_ifs at h1 <;> omega

/-- An iteration of `update` never decreases the count. -/
theorem tick_count_le {α : Type} (env : Env α) (e : Emitter α) (a b : ℚ) :
    e.mCurrNumParticles ≤ (tick env e a b).mCurrNumParticles := by
  have hf := applyPerlin_frame env { e with mDiffTime := f64 (a - e.mCurrTime) }
  have h := addParticlesLoop_count_le env
    (spawnAmount (applyPerlin env { e with mDiffTime := f64 (a - e.mCurrTime) })).toNat
    (applyPerlin env { e with mDiffTime := f64 (a - e.mCurrTime) })
  rw [hf.1] at h
  exact h

/-- A run of `update` never decreases the count. -/
theorem update_count_le {α : Type} (env : Env α) (ts : List (ℚ × ℚ)) (e : Emitter α) :
    e.mCurrNumParticles ≤ (update env ts e).mCurrNumParticles := by
  induction ts generalizing e with
  | nil => exact le_refl _
  | cons t ts ih =>
    unfold update
    split_ifs
    · exact le_refl _
    · exact le_trans (tick_count_le env e t.1 t.2) (ih _)

/-- C18: `mCurrNumParticles` never decreases, over an iteration of `update` and over a whole
run; and `addParticles(n)` with `n ≤ mMaxParticles - mCurrNumParticles` re-uses no purgatory
particle: the purgatory list and every existing particle are unchanged, `n` new particles are
appended and the count grows by `n`. -/
theorem count_monotone_and_no_early_reuse {α : Type} (env : Env α) (e : Emitter α) (n : Nat)
    (h : (n : Int) ≤ e.mMaxParticles - e.mCurrNumParticles) :
    (∀ a b, getNumLiveParticles e ≤ getNumLiveParticles (tick env e a b)) ∧
    (∀ ts, getNumLiveParticles e ≤ getNumLiveParticles (update env ts e)) ∧
    (addParticles env n e).mPurgParticles = e.mPurgParticles ∧
    (∃ news : List (Particle α), news.length = n ∧
      (addParticles env n e).mParticles = e.mParticles ++ news) ∧
    (∀ (i : Nat) (p : Particle α), e.mParticles[i]? = some p →
      (addParticles env n e).mParticles[i]? = some p) ∧
    (addParticles env n e).mCurrNumParticles = e.mCurrNumParticles + n := by
  have hadd : addParticles env n e = (createParticle env)^[n] e := by
    show addParticlesLoop env (n : Int).toNat e = _
    rw [Int.toNat_ofNat]
    exact addParticlesLoop_create env n e h
  obtain ⟨c1, _, c3, _, news, c5, c6⟩ := iterate_createParticle env n e
  refine ⟨tick_count_le env e, fun ts => update_count_le env ts e, ?_, ⟨news, c5, ?_⟩, ?_, ?_⟩
  · rw [hadd, c3]
  · rw [hadd, c6]
  · intro i p hi
    rw [hadd, c6, List.getElem?_append_left (List.getElem?_eq_some.mp hi).1]
    exact hi
  · rw [hadd, c1]

/-- C18, witness: one request on an emitter with count 3 and capacity 4. -/
theorem count_monotone_and_no_early_reuse_witness :
    ((1 : Nat) : Int) ≤ crowdedEmitter.mMaxParticles - crowdedEmitter.mCurrNumParticles ∧
    (addParticles lifeEnv (1 : Nat) crowdedEmitter).mPurgParticles
      = crowdedEmitter.mPurgParticles ∧
    (addParticles lifeEnv (1 : Nat) crowdedEmitter).mCurrNumParticles
      = crowdedEmitter.mCurrNumParticles + (1 : Nat) :=
  ⟨by decide,
    (count_monotone_and_no_early_reuse lifeEnv crowdedEmitter 1 (by decide)).2.2.1,
    (count_monotone_and_no_early_reuse lifeEnv crowdedEmitter 1 (by decide)).2.2.2.2.2⟩

/-! ## The loop over the particles -/

/-- The position of a dead particle is a member of `deadPositions`. -/
theorem deadPositions_mem_of_dead {α : Type} (k j : Nat) (ps : List (Particle α))
    (p : Particle α) (hj : ps[j]? = some p) (hd : p.mIsDead = true) :
    k + j ∈ deadPositions k ps := by
  induction ps generalizing k j with
  | nil => simp at hj
  | cons q qs ih =>
    cases j with
    | zero =>
      simp only [List.getElem?_cons_zero, Option.some.injEq] at hj
      subst hj
      simp [deadPositions, hd]
    | succ j =>
      rw [List.getElem?_cons_succ] at hj
      have hm := ih (k + 1) j hj
      have he : k + (j + 1) = k + 1 + j := by omega
      rw [he]
      unfold deadPositions
      split_ifs
      · exact List.mem_cons_of_mem _ hm
      · exact hm

/-- The list `deadPositions i ps` has one entry for each dead particle. -/
theorem deadPositions_length {α : Type} (k : Nat) (ps : List (Particle α)) :
    (deadPositions k ps).length = ps.countP fun p => p.mIsDead := by
  induction ps generalizing k with
  | nil => rfl
  | cons q qs ih =>
    unfold deadPositions
    by_cases hd : q.mIsDead = true
    · simp [hd, ih]
    · simp [hd, ih]

/-- C15: the loop over the particles in an iteration of `update` keeps the number of particles
and appends to `mPurgParticles` one reference for each particle that had `mIsDead` set, and
nothing else.  A particle with `mIsDead` set ends with `mIsDead` clear and `mIsInPurgatory`
set, is otherwise unchanged (not updated) and is referenced exactly once by the appended
entries; a particle with `mIsDead` clear and `mIsInPurgatory` set is unchanged and not
referenced by them; any other particle is replaced by the result of one call of
`Particle::update` with the configured gravity and is not referenced by them. -/
theorem sweepPass_moves_dead_updates_live {α : Type} (env : Env α) (e : Emitter α) :
    (sweepPass env e).mParticles.length = e.mParticles.length ∧
    ∃ appended : List Nat,
      (sweepPass env e).mPurgParticles = e.mPurgParticles ++ appended ∧
      appended.length = e.mParticles.countP (fun p => p.mIsDead) ∧
      ∀ (i : Nat) (p : Particle α), e.mParticles[i]? = some p →
        (p.mIsDead = true →
          (sweepPass env e).mParticles[i]?
            = some { p with mIsDead := false, mIsInPurgatory := true } ∧
          appended.count i = 1) ∧
        (p.mIsDead = false → p.mIsInPurgatory = true →
          (sweepPass env e).mParticles[i]? = some p ∧ appended.count i = 0) ∧
        (p.mIsDead = false → p.mIsInPurgatory = false →
          (sweepPass env e).mParticles[i]?
            = some (env.ops.update p e.mFormat.particleGravity) ∧
          appended.count i = 0) := by
  have hp : (sweepPass env e).mParticles
      = e.mParticles.map (sweepOne env e.mFormat.particleGravity) := by
    show (sweepLoop env _ 0 e.mParticles e.mPurgParticles).1 = _
    exact sweepLoop_fst env _ 0 _ _
  have hq : (sweepPass env e).mPurgParticles
      = e.mPurgParticles ++ deadPositions 0 e.mParticles := by
    show (sweepLoop env _ 0 e.mParticles e.mPurgParticles).2 = _
    exact sweepLoop_snd env _ 0 _ _
  refine ⟨by rw [hp, List.length_map], deadPositions 0 e.mParticles, hq,
    deadPositions_length 0 _, ?_⟩
  intro i p hi
  have hnot : p.mIsDead = false → (deadPositions 0 e.mParticles).count i = 0 := by
    intro hd
    apply List.count_eq_zero_of_not_mem
    intro hm
    obtain ⟨_, q, h1, h2⟩ := mem_deadPositions 0 i _ hm
    rw [Nat.sub_zero, hi] at h1
    cases h1
    rw [hd] at h2
    exact Bool.noConfusion h2
  refine ⟨?_, ?_, ?_⟩
  · intro hd
    constructor
    · rw [hp, List.getElem?_map, hi]
      simp [sweepOne, hd]
    · apply List.count_eq_one_of_mem (deadPositions_nodup 0 _)
      have := deadPositions_mem_of_dead 0 i _ p hi hd
      rwa [Nat.zero_add] at this
  · intro hd hpg
    refine ⟨?_, hnot hd⟩
    rw [hp, List.getElem?_map, hi]
    simp [sweepOne, hd, hpg]
  · intro hd hpg
    refine ⟨?_, hnot hd⟩
    rw [hp, List.getElem?_map, hi]
    simp [sweepOne, hd, hpg]

/-- C15, witness: an emitter with a dead particle, a particle in purgatory and a live
particle. -/
theorem sweepPass_moves_dead_updates_live_witness :
    mixedEmitter.mParticles[0]? = some ⟨true, false, 0⟩ ∧
    (sweepPass lifeEnv mixedEmitter).mParticles.length = mixedEmitter.mParticles.length ∧
    ∃ appended : List Nat,
      (sweepPass lifeEnv mixedEmitter).mPurgParticles
        = mixedEmitter.mPurgParticles ++ appended ∧
      appended.length = mixedEmitter.mParticles.countP (fun p => p.mIsDead) ∧
      (sweepPass lifeEnv mixedEmitter).mParticles[0]? = some ⟨false, true, 0⟩ ∧
      appended.count 0 = 1 :=
  ⟨by decide!, (sweepPass_moves_dead_updates_live lifeEnv mixedEmitter).1,
    (sweepPass_moves_dead_updates_live lifeEnv mixedEmitter).2.imp fun _ h =>
      ⟨h.1, h.2.1, ((h.2.2 0 ⟨true, false, 0⟩ (by decide!)).1 rfl).1,
        ((h.2.2 0 ⟨true, false, 0⟩ (by decide!)).1 rfl).2⟩⟩

/-! ## Re-use of a purgatory particle -/

/-- The particle type `lifeOps` clears both flags in `setup`. -/
theorem lifeOps_setup_clears_flags (p : Particle ℚ) (loc : Vec3f) (speed size : ℚ)
    (color : ColorA) (life decay : ℚ) :
    (lifeEnv.ops.setup p loc speed size color life decay).mIsDead = false ∧
    (lifeEnv.ops.setup p loc speed size color life decay).mIsInPurgatory = false :=
  ⟨rfl, rfl⟩

/-- The emitter `fullEmitter` satisfies the invariant of the purgatory list. -/
theorem purgInv_fullEmitter : PurgInv fullEmitter := by
  refine ⟨by decide, ?_⟩
  intro i hi
  have h : i = 0 ∨ i = 2 := by
    simpa [fullEmitter] using hi
  rcases h with h | h
  · subst h; exact ⟨⟨false, true, 0⟩, rfl, rfl, rfl⟩
  · subst h; exact ⟨⟨false, true, 0⟩, rfl, rfl, rfl⟩

/-- The invariant of the purgatory list holds whenever the body of the loop of `addParticles`
runs: in every iteration `m` of the loop, in every iteration of `update` that follows a run
from a fresh `setup`. -/
theorem purgInv_at_addParticles {α : Type} (env : Env α) (junk : Emitter α)
    (f : EmitterFormat) (w : SetupClock) (ts : List (ℚ × ℚ)) (tStart : ℚ) (m : Nat) :
    PurgInv (addParticlesLoop env m (applyPerlin env
      { update env ts (setup (Emitter.construct junk) f w) with
        mDiffTime := f64 (tStart - (update env ts (setup (Emitter.construct junk) f w)).mCurrTime) })) := by
  have h0 : PurgInv (setup (Emitter.construct junk) f w) :=
    ⟨List.nodup_nil, fun i hi => absurd hi (List.not_mem_nil i)⟩
  have h1 : PurgInv (update env ts (setup (Emitter.construct junk) f w)) :=
    purgInv_update env ts _ h0
  have h2 : PurgInv { update env ts (setup (Emitter.construct junk) f w) with
      mDiffTime := f64 (tStart - (update env ts (setup (Emitter.construct junk) f w)).mCurrTime) } := h1
  exact purgInv_addParticlesLoop env m _ (purgInv_applyPerlin env _ h2)

/-- C12: when the body of the loop of `addParticles` runs with the count at capacity and a
non-empty purgatory list whose last entry is `i`, on an emitter that satisfies the invariant of
the purgatory list (as every emitter does when the body runs), and `Particle::setup` clears
both flags: the particle at position `i` was in purgatory, it is the one that is set up again,
it stays at position `i`, no other particle changes, exactly the last entry of the list is
removed, and afterwards the particle is live (`mIsDead` and `mIsInPurgatory` clear) and no
remaining entry references it. -/
theorem recycle_reuses_last_purgatory_entry {α : Type} (env : Env α) (e : Emitter α) (i : Nat)
    (hinv : PurgInv e)
    (hfull : e.mCurrNumParticles = e.mMaxParticles)
    (hlast : e.mPurgParticles.getLast? = some i)
    (hsetup : ∀ p loc speed size color life decay,
      (env.ops.setup p loc speed size color life decay).mIsDead = false ∧
      (env.ops.setup p loc speed size color life decay).mIsInPurgatory = false) :
    addParticles env 1 e = addParticlesBody env e ∧
    ∃ p : Particle α,
      e.mParticles[i]? = some p ∧ p.mIsInPurgatory = true ∧
      (addParticlesBody env e).mParticles[i]? = some (setupParticle env e p) ∧
      (addParticlesBody env e).mParticles.length = e.mParticles.length ∧
      (∀ j, j ≠ i → (addParticlesBody env e).mParticles[j]? = e.mParticles[j]?) ∧
      (addParticlesBody env e).mPurgParticles = e.mPurgParticles.dropLast ∧
      (addParticlesBody env e).mPurgParticles ++ [i] = e.mPurgParticles ∧
      (addParticlesBody env e).mCurrNumParticles = e.mCurrNumParticles ∧
      (setupParticle env e p).mIsDead = false ∧
      (setupParticle env e p).mIsInPurgatory = false ∧
      isLive (setupParticle env e p) = true ∧
      i ∉ (addParticlesBody env e).mPurgParticles := by
  have hnlt : ¬ e.mCurrNumParticles < e.mMaxParticles := by omega
  have hbody : addParticlesBody env e = recycleParticle env e i := by
    simp only [addParticlesBody, if_neg hnlt, hlast]
  have hsplit : e.mPurgParticles.dropLast ++ [i] = e.mPurgParticles :=
    List.dropLast_append_getLast? i (by rw [hlast]; rfl)
  have hmem : i ∈ e.mPurgParticles := by
    rw [← hsplit]; simp
  obtain ⟨p, hp, hpg, _⟩ := hinv.2 i hmem
  have hnd : (e.mPurgParticles.dropLast ++ [i]).Nodup := by rw [hsplit]; exact hinv.1
  rw [List.nodup_append] at hnd
  have hflags := hsetup p e.mFormat.emitterPosition e.mFormat.particleSpeed
    e.mFormat.particleSize e.mFormat.particleColorA
    (env.randFloat e.mRandCalls (f32 (e.mFormat.particleLifespanSeconds * f32 (95 / 100)))
      (f32 (e.mFormat.particleLifespanSeconds * f32 (105 / 100)))) e.mFormat.particleDecay
  have hd : (setupParticle env e p).mIsDead = false := hflags.1
  have hg : (setupParticle env e p).mIsInPurgatory = false := hflags.2
  refine ⟨rfl, p, hp, hpg, ?_, ?_, ?_, ?_, ?_, ?_, hd, hg, ?_, ?_⟩
  · rw [hbody]
    show (writeAt (setupParticle env e) i e.mParticles)[i]? = _
    rw [writeAt_getElem?_eq, hp]
    rfl
  · rw [hbody]
    exact writeAt_length _ _ _
  · intro j hj
    rw [hbody]
    exact writeAt_getElem?_ne _ i j _ hj
  · rw [hbody]; rfl
  · rw [hbody]; exact hsplit
  · rw [hbody]; rfl
  · simp [isLive, hd, hg]
  · rw [hbody]
    intro hi
    exact hnd.2.2 hi (List.mem_singleton_self i)

/-- C12, witness: the emitter at capacity whose purgatory list is `[0, 2]`. -/
theorem recycle_reuses_last_purgatory_entry_witness :
    PurgInv fullEmitter ∧
    fullEmitter.mCurrNumParticles = fullEmitter.mMaxParticles ∧
    fullEmitter.mPurgParticles.getLast? = some 2 ∧
    (∀ p loc speed size color life decay,
      (lifeEnv.ops.setup p loc speed size color life decay).mIsDead = false ∧
      (lifeEnv.ops.setup p loc speed size color life decay).mIsInPurgatory = false) ∧
    addParticles lifeEnv 1 fullEmitter = addParticlesBody lifeEnv fullEmitter ∧
    (addParticlesBody lifeEnv fullEmitter).mPurgParticles = [0] ∧
    (addParticlesBody lifeEnv fullEmitter).mParticles[2]? = some ⟨false, false, 15938355 / 4194304⟩ :=
  ⟨purgInv_fullEmitter, by decide, by decide, lifeOps_setup_clears_flags,
    (recycle_reuses_last_purgatory_entry lifeEnv fullEmitter 2 purgInv_fullEmitter
      (by decide) (by decide) lifeOps_setup_clears_flags).1,
    by decide!, by decide!⟩

/-! ## The order of the steps of an iteration -/

/-- The function `applyPerlin` maps a function over the particles that leaves every particle
alone that is not live. -/
theorem applyPerlin_eq_map {α : Type} (env : Env α) (e : Emitter α) :
    ∃ f : Particle α → Particle α, (∀ p, isLive p = false → f p = p) ∧
      (applyPerlin env e).mParticles = e.mParticles.map f := by
  unfold applyPerlin
  split_ifs
  · exact ⟨id, fun _ _ => rfl, by simp⟩
  · exact ⟨_, fun p hp => by simp [hp], rfl⟩
  · exact ⟨fun p => if isLive p then
      env.ops.applyPerlinVec p e.mFormat.particleTurbulance (noiseVector env e) else p,
      fun p hp => by simp [hp], rfl⟩
  · exact ⟨id, fun _ _ => rfl, by simp⟩

/-- The function `applyPerlin` leaves a particle alone that is not live. -/
theorem applyPerlin_not_live {α : Type} (env : Env α) (e : Emitter α) (i : Nat)
    (p : Particle α) (hi : e.mParticles[i]? = some p) (hl : isLive p = false) :
    (applyPerlin env e).mParticles[i]? = some p := by
  obtain ⟨f, hf, hm⟩ := applyPerlin_eq_map env e
  rw [hm, List.getElem?_map, hi]
  simp [hf p hl]

/-- One iteration of the loop of `addParticles` leaves alone a particle that the purgatory list
does not reference, and does not add a reference to it. -/
theorem addParticlesBody_other {α : Type} (env : Env α) (e : Emitter α) (i : Nat)
    (p : Particle α) (hi : e.mParticles[i]? = some p) (hn : i ∉ e.mPurgParticles) :
    (addParticlesBody env e).mParticles[i]? = some p ∧
    i ∉ (addParticlesBody env e).mPurgParticles := by
  unfold addParticlesBody
  split_ifs
  · refine ⟨?_, hn⟩
    show (e.mParticles ++ _)[i]? = some p
    rw [List.getElem?_append_left (List.getElem?_eq_some.mp hi).1]
    exact hi
  · cases hl : e.mPurgParticles.getLast? with
    | none => exact ⟨hi, hn⟩
    | some k =>
      have hsplit : e.mPurgParticles.dropLast ++ [k] = e.mPurgParticles :=
        List.dropLast_append_getLast? k (by rw [hl]; rfl)
      have hk : k ∈ e.mPurgParticles := by rw [← hsplit]; simp
      have hik : i ≠ k := fun h => hn (by rw [h]; exact hk)
      refine ⟨?_, fun h => hn (List.mem_of_mem_dropLast h)⟩
      show (writeAt _ k e.mParticles)[i]? = some p
      rw [writeAt_getElem?_ne _ k i _ hik]
      exact hi

/-- The loop of `addParticles` leaves alone a particle that the purgatory list does not
reference, and does not add a reference to it. -/
theorem addParticlesLoop_other {α : Type} (env : Env α) (n : Nat) (e : Emitter α) (i : Nat)
    (p : Particle α) (hi : e.mParticles[i]? = some p) (hn : i ∉ e.mPurgParticles) :
    (addParticlesLoop env n e).mParticles[i]? = some p ∧
    i ∉ (addParticlesLoop env n e).mPurgParticles := by
  induction n generalizing e with
  | zero => exact ⟨hi, hn⟩
  | succ n ih =>
    obtain ⟨h1, h2⟩ := addParticlesBody_other env e i p hi hn
    exact ih _ h1 h2

/-- A particle that the loop of `addParticles` leaves at a position past the end of the old list
is a newly constructed particle, set up once. -/
theorem addParticlesLoop_created {α : Type} (env : Env α) (n : Nat) (e : Emitter α) (j : Nat)
    (q : Particle α) (hinv : PurgInv e) (hj : e.mParticles.length ≤ j)
    (hq : (addParticlesLoop env n e).mParticles[j]? = some q) :
    ∃ s : Emitter α, s.mFormat = e.mFormat ∧ q = setupParticle env s env.ops.construct := by
  induction n generalizing e with
  | zero =>
    have : e.mParticles[j]? = none := List.getElem?_eq_none hj
    rw [show (addParticlesLoop env 0 e) = e from rfl, this] at hq
    exact Option.noConfusion hq
  | succ n ih =>
    have hinv' := purgInv_addParticlesBody env e hinv
    by_cases hlen : (addParticlesBody env e).mParticles.length ≤ j
    · obtain ⟨s, hs1, hs2⟩ := ih _ hinv' hlen hq
      exact ⟨s, hs1.trans (addParticlesBody_frame env e).2.1, hs2⟩
    · have hlt : e.mCurrNumParticles < e.mMaxParticles := by
        by_contra hc
        apply hlen
        unfold addParticlesBody
        rw [if_neg hc]
        cases e.mPurgParticles.getLast? with
        | none => exact hj
        | some k => simpa [recycleParticle, writeAt_length] using hj
      have hb : addParticlesBody env e = createParticle env e := by
        simp only [addParticlesBody, if_pos hlt]
      have hjl : j = e.mParticles.length := by
        rw [hb] at hlen
        simp only [createParticle, List.length_append, List.length_singleton] at hlen
        omega
      have hnew : (addParticlesBody env e).mParticles[j]?
          = some (setupParticle env e env.ops.construct) := by
        rw [hb, hjl]
        show (e.mParticles ++ [setupParticle env e env.ops.construct])[e.mParticles.length]? = _
        rw [List.getElem?_append_right (le_refl _)]
        simp
      have hnot : j ∉ (addParticlesBody env e).mPurgParticles := by
        rw [hb]
        intro hm
        obtain ⟨p, hp, _⟩ := hinv.2 j hm
        have := (List.getElem?_eq_some.mp hp).1
        omega
      have hkeep := (addParticlesLoop_other env n _ j _ hnew hnot).1
      simp only [addParticlesLoop] at hq
      rw [hkeep] at hq
      exact ⟨e, rfl, (Option.some.inj hq).symm⟩

/-- A particle whose reference the loop of `addParticles` removed from the purgatory list is the
old particle at that position, set up once. -/
theorem addParticlesLoop_recycled {α : Type} (env : Env α) (n : Nat) (e : Emitter α) (i : Nat)
    (hinv : PurgInv e) (hi : i ∈ e.mPurgParticles)
    (hn : i ∉ (addParticlesLoop env n e).mPurgParticles) :
    ∃ (s : Emitter α) (p0 : Particle α), s.mFormat = e.mFormat ∧ e.mParticles[i]? = some p0 ∧
      (addParticlesLoop env n e).mParticles[i]? = some (setupParticle env s p0) := by
  induction n generalizing e with
  | zero => exact absurd hi hn
  | succ n ih =>
    have hinv' := purgInv_addParticlesBody env e hinv
    obtain ⟨p0, hp0, _, _⟩ := hinv.2 i hi
    simp only [addParticlesLoop] at hn ⊢
    by_cases hlt : e.mCurrNumParticles < e.mMaxParticles
    · have hb : addParticlesBody env e = createParticle env e := by
        simp only [addParticlesBody, if_pos hlt]
      have hi' : i ∈ (addParticlesBody env e).mPurgParticles := by rw [hb]; exact hi
      obtain ⟨s, p1, hsf, h1, h2⟩ := ih _ hinv' hi' hn
      refine ⟨s, p1, hsf.trans (addParticlesBody_frame env e).2.1, ?_, h2⟩
      rw [hb] at h1
      have : (createParticle env e).mParticles[i]? = e.mParticles[i]? := by
        show (e.mParticles ++ _)[i]? = _
        exact List.getElem?_append_left (List.getElem?_eq_some.mp hp0).1
      rw [← this]
      exact h1
    · cases hl : e.mPurgParticles.getLast? with
      | none =>
        have hb : addParticlesBody env e = e := by
          simp only [addParticlesBody, if_neg hlt, hl]
        rw [hb] at hn ⊢
        exact ih e hinv hi hn
      | some k =>
        have hb : addParticlesBody env e = recycleParticle env e k := by
          simp only [addParticlesBody, if_neg hlt, hl]
        have hsplit : e.mPurgParticles.dropLast ++ [k] = e.mPurgParticles :=
          List.dropLast_append_getLast? k (by rw [hl]; rfl)
        have hnd : (e.mPurgParticles.dropLast ++ [k]).Nodup := by
          rw [hsplit]; exact hinv.1
        rw [List.nodup_append] at hnd
        by_cases hik : i = k
        · subst hik
          have hnew : (addParticlesBody env e).mParticles[i]?
              = some (setupParticle env e p0) := by
            rw [hb]
            show (writeAt (setupParticle env e) i e.mParticles)[i]? = _
            rw [writeAt_getElem?_eq, hp0]
            rfl
          have hnot : i ∉ (addParticlesBody env e).mPurgParticles := by
            rw [hb]
            exact fun h => hnd.2.2 h (List.mem_singleton_self i)
          exact ⟨e, p0, rfl, hp0, (addParticlesLoop_other env n _ i _ hnew hnot).1⟩
        · have hi' : i ∈ (addParticlesBody env e).mPurgParticles := by
            rw [hb]
            show i ∈ e.mPurgParticles.dropLast
            rw [← hsplit] at hi
            rcases List.mem_append.mp hi with h | h
            · exact h
            · exact absurd (List.mem_singleton.mp h) hik
          obtain ⟨s, p1, hsf, h1, h2⟩ := ih _ hinv' hi' hn
          refine ⟨s, p1, hsf.trans (addParticlesBody_frame env e).2.1, ?_, h2⟩
          rw [hb] at h1
          have : (recycleParticle env e k).mParticles[i]? = e.mParticles[i]? :=
            writeAt_getElem?_ne _ k i _ hik
          rw [← this]
          exact h1

/-- The calls before the loop over the particles keep the configuration. -/
theorem spawnPhase_format {α : Type} (env : Env α) (e : Emitter α) (a : ℚ) :
    (spawnPhase env e a).mFormat = e.mFormat := by
  have h1 := addParticlesLoop_frame env
    (spawnAmount (applyPerlin env { e with mDiffTime := f64 (a - e.mCurrTime) })).toNat
    (applyPerlin env { e with mDiffTime := f64 (a - e.mCurrTime) })
  have h2 := applyPerlin_frame env { e with mDiffTime := f64 (a - e.mCurrTime) }
  show (addParticlesLoop env _ _).mFormat = _
  rw [h1.2.1, h2.2.2.2.1]

/-- The particle at a position after an iteration of `update` is the image under `sweepOne` of
the particle at that position after the call of `addParticles`. -/
theorem tick_getElem? {α : Type} (env : Env α) (e : Emitter α) (a b : ℚ) (i : Nat) :
    (tick env e a b).mParticles[i]?
      = ((spawnPhase env e a).mParticles[i]?).map (sweepOne env e.mFormat.particleGravity) := by
  show (sweepLoop env (spawnPhase env e a).mFormat.particleGravity 0
    (spawnPhase env e a).mParticles (spawnPhase env e a).mPurgParticles).1[i]? = _
  rw [sweepLoop_fst, List.getElem?_map, spawnPhase_format]

/-- The purgatory list after an iteration of `update` is the list after the call of
`addParticles` followed by the positions of the dead particles. -/
theorem tick_purgParticles {α : Type} (env : Env α) (e : Emitter α) (a b : ℚ) :
    (tick env e a b).mPurgParticles
      = (spawnPhase env e a).mPurgParticles ++ deadPositions 0 (spawnPhase env e a).mParticles := by
  show (sweepLoop env (spawnPhase env e a).mFormat.particleGravity 0
    (spawnPhase env e a).mParticles (spawnPhase env e a).mPurgParticles).2 = _
  rw [sweepLoop_snd]

/-- C16: an iteration of `update` runs turbulence, then `addParticles`, then the loop over the
particles.  On an emitter that satisfies the invariant of the purgatory list, with a
`Particle::setup` that clears both flags: a particle created by `addParticles` in this
iteration is a newly constructed particle set up once from the configuration (no turbulence was
applied to it) and the iteration ends with one `Particle::update` applied to it; a particle recycled by
`addParticles` in this iteration was left alone by the turbulence step, was set up once, and
the iteration ends with one `Particle::update` applied to it; and a particle that has `mIsDead`
set at the end of this iteration is not referenced by the purgatory list then, and the next
iteration moves it to purgatory: flags switched, nothing else changed, reference appended. -/
theorem tick_order_turbulence_spawn_sweep {α : Type} (env : Env α) (e : Emitter α)
    (a b c d : ℚ) (hinv : PurgInv e)
    (hsetup : ∀ p loc speed size color life decay,
      (env.ops.setup p loc speed size color life decay).mIsDead = false ∧
      (env.ops.setup p loc speed size color life decay).mIsInPurgatory = false) :
    spawnPhase env e a
      = addParticles env (spawnAmount (applyPerlin env { e with mDiffTime := f64 (a - e.mCurrTime) }))
          (applyPerlin env { e with mDiffTime := f64 (a - e.mCurrTime) }) ∧
    tick env e a b = { sweepPass env (spawnPhase env e a) with mCurrTime := b } ∧
    (∀ (j : Nat) (q : Particle α), e.mParticles.length ≤ j →
      (spawnPhase env e a).mParticles[j]? = some q →
      (∃ s : Emitter α, s.mFormat = e.mFormat ∧ q = setupParticle env s env.ops.construct) ∧
      (tick env e a b).mParticles[j]? = some (env.ops.update q e.mFormat.particleGravity)) ∧
    (∀ i : Nat, i ∈ e.mPurgParticles → i ∉ (spawnPhase env e a).mPurgParticles →
      ∃ (s : Emitter α) (p0 : Particle α),
        s.mFormat = e.mFormat ∧
        e.mParticles[i]? = some p0 ∧
        (applyPerlin env { e with mDiffTime := f64 (a - e.mCurrTime) }).mParticles[i]? = some p0 ∧
        (spawnPhase env e a).mParticles[i]? = some (setupParticle env s p0) ∧
        (tick env e a b).mParticles[i]?
          = some (env.ops.update (setupParticle env s p0) e.mFormat.particleGravity)) ∧
    (∀ (i : Nat) (p : Particle α), (tick env e a b).mParticles[i]? = some p →
      p.mIsDead = true →
      i ∉ (tick env e a b).mPurgParticles ∧
      (tick env (tick env e a b) c d).mParticles[i]?
        = some { p with mIsDead := false, mIsInPurgatory := true } ∧
      i ∈ (tick env (tick env e a b) c d).mPurgParticles) := by
  have hlive : ∀ (s : Emitter α) (p : Particle α),
      sweepOne env e.mFormat.particleGravity (setupParticle env s p)
        = env.ops.update (setupParticle env s p) e.mFormat.particleGravity := by
    intro s p
    have hf := hsetup p s.mFormat.emitterPosition s.mFormat.particleSpeed
      s.mFormat.particleSize s.mFormat.particleColorA
      (env.randFloat s.mRandCalls (f32 (s.mFormat.particleLifespanSeconds * f32 (95 / 100)))
        (f32 (s.mFormat.particleLifespanSeconds * f32 (105 / 100)))) s.mFormat.particleDecay
    have hd : (setupParticle env s p).mIsDead = false := hf.1
    have hg : (setupParticle env s p).mIsInPurgatory = false := hf.2
    simp [sweepOne, hd, hg]
  have hinv1 : PurgInv { e with mDiffTime := f64 (a - e.mCurrTime) } := hinv
  have hinv2 := purgInv_applyPerlin env _ hinv1
  refine ⟨rfl, rfl, ?_, ?_, ?_⟩
  · intro j q hj hq
    have hlen : (applyPerlin env { e with mDiffTime := f64 (a - e.mCurrTime) }).mParticles.length ≤ j := by
      rw [applyPerlin_length]
      exact hj
    obtain ⟨s, hsf, hs⟩ := addParticlesLoop_created env _ _ j q hinv2 hlen hq
    refine ⟨⟨s, hsf.trans (applyPerlin_frame env _).2.2.2.1, hs⟩, ?_⟩
    rw [tick_getElem?, hq, hs]
    show some (sweepOne env e.mFormat.particleGravity (setupParticle env s env.ops.construct)) = _
    rw [hlive]
  · intro i hi hn
    have hi2 : i ∈ (applyPerlin env { e with mDiffTime := f64 (a - e.mCurrTime) }).mPurgParticles := by
      rw [(applyPerlin_frame env _).2.2.1]
      exact hi
    obtain ⟨s, p0, hsf, h1, h2⟩ := addParticlesLoop_recycled env _ _ i hinv2 hi2 hn
    obtain ⟨p, hp, hpg, _⟩ := hinv.2 i hi
    have hsame : (applyPerlin env { e with mDiffTime := f64 (a - e.mCurrTime) }).mParticles[i]?
        = some p :=
      applyPerlin_not_live env { e with mDiffTime := f64 (a - e.mCurrTime) } i p hp
        (by simp [isLive, hpg])
    have hpp : p0 = p := by
      rw [hsame] at h1
      exact (Option.some.inj h1).symm
    subst hpp
    refine ⟨s, p0, hsf.trans (applyPerlin_frame env _).2.2.2.1, hp, hsame, h2, ?_⟩
    rw [tick_getElem?]
    have h2' : (spawnPhase env e a).mParticles[i]? = some (setupParticle env s p0) := h2
    rw [h2']
    show some (sweepOne env e.mFormat.particleGravity (setupParticle env s p0)) = _
    rw [hlive]
  · intro i p hi hd
    have hinv4 := purgInv_tick env e a b hinv
    have hnot : i ∉ (tick env e a b).mPurgParticles := by
      intro hm
      obtain ⟨q, hq, _, hqd⟩ := hinv4.2 i hm
      rw [hi] at hq
      cases hq
      rw [hd] at hqd
      exact Bool.noConfusion hqd
    have hnl : isLive p = false := by simp [isLive, hd]
    have h5 : (applyPerlin env { tick env e a b with
        mDiffTime := f64 (c - (tick env e a b).mCurrTime) }).mParticles[i]? = some p :=
      applyPerlin_not_live env _ i p hi hnl
    have hnot5 : i ∉ (applyPerlin env { tick env e a b with
        mDiffTime := f64 (c - (tick env e a b).mCurrTime) }).mPurgParticles := by
      rw [(applyPerlin_frame env _).2.2.1]
      exact hnot
    obtain ⟨h6, _⟩ := addParticlesLoop_other env
      (spawnAmount (applyPerlin env { tick env e a b with
        mDiffTime := f64 (c - (tick env e a b).mCurrTime) })).toNat _ i p h5 hnot5
    have h6' : (spawnPhase env (tick env e a b) c).mParticles[i]? = some p := h6
    refine ⟨hnot, ?_, ?_⟩
    · rw [tick_getElem?, h6']
      simp [sweepOne, hd]
    · rw [tick_purgParticles]
      apply List.mem_append_right
      have := deadPositions_mem_of_dead 0 i _ p h6' hd
      rwa [Nat.zero_add] at this

/-- C16, witness: one iteration on the emitter at capacity, a sixtieth of a second after its
reference time: the request for one particle recycles position 2. -/
theorem tick_order_turbulence_spawn_sweep_witness :
    PurgInv fullEmitter ∧
    (∀ p loc speed size color life decay,
      (lifeEnv.ops.setup p loc speed size color life decay).mIsDead = false ∧
      (lifeEnv.ops.setup p loc speed size color life decay).mIsInPurgatory = false) ∧
    2 ∈ fullEmitter.mPurgParticles ∧
    2 ∉ (spawnPhase lifeEnv fullEmitter (1 / 60)).mPurgParticles ∧
    ∃ (s : Emitter ℚ) (p0 : Particle ℚ),
      s.mFormat = fullEmitter.mFormat ∧
      fullEmitter.mParticles[2]? = some p0 ∧
      (applyPerlin lifeEnv { fullEmitter with
        mDiffTime := f64 (1 / 60 - fullEmitter.mCurrTime) }).mParticles[2]? = some p0 ∧
      (spawnPhase lifeEnv fullEmitter (1 / 60)).mParticles[2]?
        = some (setupParticle lifeEnv s p0) ∧
      (tick lifeEnv fullEmitter (1 / 60) (1 / 60)).mParticles[2]?
        = some (lifeEnv.ops.update (setupParticle lifeEnv s p0)
            fullEmitter.mFormat.particleGravity) :=
  ⟨purgInv_fullEmitter, lifeOps_setup_clears_flags, by decide, by decide!,
    (tick_order_turbulence_spawn_sweep lifeEnv fullEmitter (1 / 60) (1 / 60) (2 / 60) (2 / 60)
      purgInv_fullEmitter lifeOps_setup_clears_flags).2.2.2.1 2 (by decide) (by decide!)⟩

/-! ## The lock in the loop of update -/

/-- The function `applyPerlin` does not look at the mutex. -/
theorem applyPerlin_mutex {α : Type} (env : Env α) (e : Emitter α) (m : Bool) :
    applyPerlin env { e with mWriteMutex := m }
      = { applyPerlin env e with mWriteMutex := m } := by
  unfold applyPerlin
  split_ifs <;> rfl

/-- One iteration of the loop of `addParticles` does not look at the mutex. -/
theorem addParticlesBody_mutex {α : Type} (env : Env α) (e : Emitter α) (m : Bool) :
    addParticlesBody env { e with mWriteMutex := m }
      = { addParticlesBody env e with mWriteMutex := m } := by
  unfold addParticlesBody
  split_ifs
  · rfl
  · show (match e.mPurgParticles.getLast? with
      | some i => recycleParticle env { e with mWriteMutex := m } i
      | none => { e with mWriteMutex := m }) = _
    cases e.mPurgParticles.getLast? <;> rfl

/-- The loop of `addParticles` does not look at the mutex. -/
theorem addParticlesLoop_mutex {α : Type} (env : Env α) (n : Nat) (e : Emitter α) (m : Bool) :
    addParticlesLoop env n { e with mWriteMutex := m }
      = { addParticlesLoop env n e with mWriteMutex := m } := by
  induction n generalizing e with
  | zero => rfl
  | succ n ih =>
    simp only [addParticlesLoop]
    rw [addParticlesBody_mutex, ih]

/-- The steps of the body of the loop of `update`, run on an emitter whose mutex is free, give
the emitter of `tick`. -/
theorem runActions_updateBody {α : Type} (env : Env α) (e : Emitter α) (a b : ℚ)
    (h : e.mWriteMutex = false) :
    runActions env a b e updateBody = tick env e a b := by
  have h1 : applyPerlin env { e with mWriteMutex := true, mDiffTime := f64 (a - e.mCurrTime) }
      = { applyPerlin env { e with mDiffTime := f64 (a - e.mCurrTime) } with mWriteMutex := true } :=
    applyPerlin_mutex env { e with mDiffTime := f64 (a - e.mCurrTime) } true
  have h0 : (tick env e a b).mWriteMutex = false := by
    show (addParticlesLoop env _ (applyPerlin env { e with mDiffTime := f64 (a - e.mCurrTime) })).mWriteMutex
      = false
    have hm : ∀ (n : Nat) (s : Emitter α), (addParticlesLoop env n s).mWriteMutex = s.mWriteMutex := by
      intro n s
      have := congrArg Emitter.mWriteMutex (addParticlesLoop_mutex env n s s.mWriteMutex)
      exact this
    rw [hm]
    have := congrArg Emitter.mWriteMutex
      (applyPerlin_mutex env { e with mDiffTime := f64 (a - e.mCurrTime) } e.mWriteMutex)
    simp only at this
    rw [← h]
    exact this
  show ({ ({ sweepPass env (addParticles env
      (spawnAmount (applyPerlin env
        { e with mWriteMutex := true, mDiffTime := f64 (a - e.mCurrTime) }))
      (applyPerlin env { e with mWriteMutex := true, mDiffTime := f64 (a - e.mCurrTime) })) with
        mCurrTime := b } : Emitter α) with mWriteMutex := false } : Emitter α) = _
  rw [h1]
  show ({ ({ sweepPass env (addParticlesLoop env
      (spawnAmount (applyPerlin env { e with mDiffTime := f64 (a - e.mCurrTime) })).toNat
      { applyPerlin env { e with mDiffTime := f64 (a - e.mCurrTime) } with mWriteMutex := true }) with
        mCurrTime := b } : Emitter α) with mWriteMutex := false } : Emitter α) = _
  rw [addParticlesLoop_mutex]
  rw [← h0]
  rfl

/-- The mutex is held when the call of `sleep` begins, whatever the emitter and the clock
readings. -/
theorem mutex_held_at_sleep {α : Type} (env : Env α) (e : Emitter α) (a b : ℚ) :
    (runActions env a b e beforeSleep).mWriteMutex = true ∧
    (runActions env a b e beforeSleep).mCurrTime = b := by
  have h1 : applyPerlin env { e with mWriteMutex := true, mDiffTime := f64 (a - e.mCurrTime) }
      = { applyPerlin env { e with mDiffTime := f64 (a - e.mCurrTime) } with mWriteMutex := true } :=
    applyPerlin_mutex env { e with mDiffTime := f64 (a - e.mCurrTime) } true
  refine ⟨?_, rfl⟩
  show (addParticlesLoop env _
    (applyPerlin env { e with mWriteMutex := true, mDiffTime := f64 (a - e.mCurrTime) })).mWriteMutex = true
  rw [h1, addParticlesLoop_mutex]

/-- C14, the code at the failing input: in the first iteration after `setup` the steps before
the call of `sleep` end with the recording of the reference time and do not contain `unlock`;
the mutex is held when `sleep` begins; `unlock` is the step after `sleep`. -/
theorem lock_held_during_sleep :
    beforeSleep = [Action.lock, Action.readClock, Action.applyPerlin, Action.addParticles,
      Action.sweep, Action.recordTime] ∧
    updateBody = beforeSleep ++ [Action.sleep, Action.unlock] ∧
    (runActions lifeEnv (1 / 60) (1 / 60)
      (setup (Emitter.construct junkEmitter) EmitterFormat.default clockZero)
      beforeSleep).mWriteMutex = true ∧
    (runActions lifeEnv (1 / 60) (1 / 60)
      (setup (Emitter.construct junkEmitter) EmitterFormat.default clockZero)
      (beforeSleep ++ [Action.sleep])).mWriteMutex = true ∧
    (runActions lifeEnv (1 / 60) (1 / 60)
      (setup (Emitter.construct junkEmitter) EmitterFormat.default clockZero)
      updateBody).mWriteMutex = false := by
  decide!

end ParticleEngine
